import Mathlib

/-!
Verification of the gas-accounting core of the erigone gas-repricing
simulator.  The Go sources under `overlay/execution/vm` and
`overlay/node/xatu` are shallowly embedded: Go `uint64` arithmetic is
modelled by `Nat` with an explicit `% 2^64` wherever the Go operation can
wrap, byte slices by `List Nat`, Go maps by `String → Option Nat`, nilable
pointers by `Option`, and fallible gas functions by `Except`.
-/

set_option maxHeartbeats 1000000
set_option maxRecDepth 4000

namespace Erigone

/-- The modulus of Go `uint64` arithmetic. -/
def u64Mod : Nat := 2 ^ 64

/-- `math.MaxUint64`. -/
def maxUint64 : Nat := u64Mod - 1

/-- Go `uint64` addition (wraps modulo `2^64`). -/
def add64 (a b : Nat) : Nat := (a + b) % u64Mod

/-- Go `uint64` multiplication (wraps modulo `2^64`). -/
def mul64 (a b : Nat) : Nat := (a * b) % u64Mod

/-- Go `uint64` subtraction `a - b` (two's-complement wrap-around) for
operands below `2^64`. -/
def sub64 (a b : Nat) : Nat := (a + u64Mod - b % u64Mod) % u64Mod

/-- `math.SafeAdd`: the wrapped sum together with an overflow flag. -/
def SafeAdd (a b : Nat) : Nat × Bool := (add64 a b, decide (u64Mod ≤ a + b))

/-- `math.SafeMul`: the wrapped product together with an overflow flag. -/
def SafeMul (a b : Nat) : Nat × Bool := (mul64 a b, decide (u64Mod ≤ a * b))

/-! Upstream `params` package constants referenced by the embedded code. -/

namespace params

def TxGas : Nat := 21000
def TxGasContractCreation : Nat := 53000
def TxAAGas : Nat := 15000
def TxDataZeroGas : Nat := 4
def TxDataNonZeroGasFrontier : Nat := 68
def TxDataNonZeroGasEIP2028 : Nat := 16
def TxAccessListAddressGas : Nat := 2400
def TxAccessListStorageKeyGas : Nat := 1900
def InitCodeWordGas : Nat := 2
def TxTotalCostFloorPerToken : Nat := 10
def PerEmptyAccountCost : Nat := 25000

def ColdSloadCostEIP2929 : Nat := 2100
def WarmStorageReadCostEIP2929 : Nat := 100
def ColdAccountAccessCostEIP2929 : Nat := 2600
def SstoreSetGasEIP2200 : Nat := 20000
def SstoreResetGasEIP2200 : Nat := 5000
def SstoreSentryGasEIP2200 : Nat := 2300
def CallValueTransferGas : Nat := 9000
def CallNewAccountGas : Nat := 25000
def MemoryGas : Nat := 3
def QuadCoeffDiv : Nat := 512

def Sha256BaseGas : Nat := 60
def Sha256PerWordGas : Nat := 12
def Ripemd160BaseGas : Nat := 600
def Ripemd160PerWordGas : Nat := 120
def IdentityBaseGas : Nat := 15
def IdentityPerWordGas : Nat := 3
def Bn254PairingBaseGasIstanbul : Nat := 45000
def Bn254PairingPerPointGasIstanbul : Nat := 34000
def Bls12381PairingBaseGas : Nat := 37700
def Bls12381PairingPerPairGas : Nat := 32600
def Bls12381G1MulGas : Nat := 12000
def Bls12381G2MulGas : Nat := 22500

end params

/-! `overlay/execution/vm/gas_schedule.go` -/

/-- `vm.GasSchedule`: the `Overrides` map may be nil (`none`); a nil
`*GasSchedule` pointer is modelled as `none` at use sites. -/
structure GasSchedule where
  Overrides : Option (String → Option Nat)

/-- `(*GasSchedule).GetOr`: the override value if set, otherwise the
default.  A nil receiver or nil map falls through to the default. -/
def GetOr (g : Option GasSchedule) (key : String) (defaultVal : Nat) : Nat :=
  match g with
  | some gs =>
      match gs.Overrides with
      | some ov =>
          match ov key with
          | some val => val
          | none => defaultVal
      | none => defaultVal
  | none => defaultVal

/-! `overlay/execution/vm/precompile_gas.go` -/

/-- `precompileBasePerWord`: `base + perWord * ceil(len(input)/32)` in
Go `uint64` arithmetic (unchecked, wraps).  Used by SHA256, RIPEMD160,
IDENTITY. -/
def precompileBasePerWord (schedule : Option GasSchedule) (baseKey perWordKey : String)
    (input : List Nat) (defaultBase defaultPerWord : Nat) : Nat :=
  let base := GetOr schedule baseKey defaultBase
  let perWord := GetOr schedule perWordKey defaultPerWord
  let words := (input.length + 31) / 32
  add64 base (mul64 perWord words)

/-- `precompileBasePerPair`: `base + perPair * (len(input) / pairSize)` in
Go `uint64` arithmetic (unchecked, wraps). -/
def precompileBasePerPair (schedule : Option GasSchedule) (baseKey perPairKey : String)
    (input : List Nat) (pairSize : Nat) (defaultBase defaultPerPair : Nat) : Nat :=
  let base := GetOr schedule baseKey defaultBase
  let perPair := GetOr schedule perPairKey defaultPerPair
  let pairs := input.length / pairSize
  add64 base (mul64 perPair pairs)

/-- `binary.BigEndian.Uint32(input[0:4])`: the big-endian 32-bit value of
the first four bytes. -/
def u32be (input : List Nat) : Nat :=
  match input with
  | b0 :: b1 :: b2 :: b3 :: _ =>
      (b0 % 256) * 16777216 + (b1 % 256) * 65536 + (b2 % 256) * 256 + b3 % 256
  | _ => 0

/-- `precompileBlake2f`: rejects inputs whose length is not 213 with zero
gas; otherwise `base + perRound * rounds` (Go `uint64`, wraps), with
`rounds` read big-endian from `input[0:4]`. -/
def precompileBlake2f (schedule : Option GasSchedule) (input : List Nat) : Nat :=
  if input.length ≠ 213 then 0
  else
    let rounds := u32be input
    let base := GetOr schedule "PC_BLAKE2F_BASE" 0
    let perRound := GetOr schedule "PC_BLAKE2F_PER_ROUND" 1
    add64 base (mul64 perRound rounds)

/-- `precompileMsm`: `k * mulGas * discount[k] / 1000` in Go `uint64`
arithmetic (unchecked, wraps).  The BLS12-381 MSM discount tables live in
the upstream `params` package (not under `src/`), so they are taken as
explicit arguments here; the source selects the G1 table when
`pointSize == 160` and the G2 table otherwise, clamping `k` to the final
entry. -/
def precompileMsm (discountG1 discountG2 : List Nat) (schedule : Option GasSchedule)
    (mulGasKey : String) (input : List Nat) (pointSize : Nat) (defaultMulGas : Nat) : Nat :=
  let k := input.length / pointSize
  if k = 0 then 0
  else
    let mulGas := GetOr schedule mulGasKey defaultMulGas
    let discount :=
      if pointSize = 160 then
        let dLen := discountG1.length
        if k < dLen then discountG1.getD (k - 1) 0 else discountG1.getD (dLen - 1) 0
      else
        let dLen := discountG2.length
        if k < dLen then discountG2.getD (k - 1) 0 else discountG2.getD (dLen - 1) 0
    mul64 (mul64 k mulGas) discount / 1000

/-- `precompileModexp`: applies the `PC_MODEXP_MIN_GAS` floor to the
default formula value. -/
def precompileModexp (schedule : Option GasSchedule) (defaultGas : Nat) : Nat :=
  let minGas := GetOr schedule "PC_MODEXP_MIN_GAS" 200
  if defaultGas < minGas then minGas else defaultGas

/-- `vm.PrecompileGasWithOverrides`: dispatch by precompile name.  A nil
schedule returns the default before the switch; the Go `switch` is
rendered as an if-chain.  The MSM discount tables are passed through. -/
def PrecompileGasWithOverrides (discountG1 discountG2 : List Nat)
    (schedule : Option GasSchedule) (name : String) (input : List Nat)
    (defaultGas : Nat) : Nat :=
  match schedule with
  | none => defaultGas
  | some _ =>
    if name = "ECREC" ∨ name = "BN254_ADD" ∨ name = "BN254_MUL" ∨ name = "BLS12_G1ADD" ∨
        name = "BLS12_G2ADD" ∨ name = "BLS12_MAP_FP_TO_G1" ∨ name = "BLS12_MAP_FP2_TO_G2" ∨
        name = "KZG_POINT_EVALUATION" ∨ name = "P256VERIFY" then
      GetOr schedule ("PC_" ++ name) defaultGas
    else if name = "SHA256" then
      precompileBasePerWord schedule "PC_SHA256_BASE" "PC_SHA256_PER_WORD" input
        params.Sha256BaseGas params.Sha256PerWordGas
    else if name = "RIPEMD160" then
      precompileBasePerWord schedule "PC_RIPEMD160_BASE" "PC_RIPEMD160_PER_WORD" input
        params.Ripemd160BaseGas params.Ripemd160PerWordGas
    else if name = "ID" then
      precompileBasePerWord schedule "PC_ID_BASE" "PC_ID_PER_WORD" input
        params.IdentityBaseGas params.IdentityPerWordGas
    else if name = "MODEXP" then
      precompileModexp schedule defaultGas
    else if name = "BN254_PAIRING" then
      precompileBasePerPair schedule "PC_BN254_PAIRING_BASE" "PC_BN254_PAIRING_PER_PAIR"
        input 192 params.Bn254PairingBaseGasIstanbul params.Bn254PairingPerPointGasIstanbul
    else if name = "BLAKE2F" then
      precompileBlake2f schedule input
    else if name = "BLS12_PAIRING_CHECK" then
      precompileBasePerPair schedule "PC_BLS12_PAIRING_CHECK_BASE"
        "PC_BLS12_PAIRING_CHECK_PER_PAIR" input 384
        params.Bls12381PairingBaseGas params.Bls12381PairingPerPairGas
    else if name = "BLS12_G1MSM" then
      precompileMsm discountG1 discountG2 schedule "PC_BLS12_G1MSM_MUL_GAS" input 160
        params.Bls12381G1MulGas
    else if name = "BLS12_G2MSM" then
      precompileMsm discountG1 discountG2 schedule "PC_BLS12_G2MSM_MUL_GAS" input 288
        params.Bls12381G2MulGas
    else defaultGas

/-! `overlay/execution/vm/intrinsic_gas_override.go` -/

/-- `intrinsicToWordSize`: ceiled word count with the upstream overflow
guard. -/
def intrinsicToWordSize (size : Nat) : Nat :=
  if size > maxUint64 - 31 then maxUint64 / 32 + 1
  else (size + 31) / 32

/-- Tail of `CalcCustomIntrinsicGas`: the `authorizationsLen` block
(runs unconditionally at the end of the Go function). -/
def intrinsicAuthPart (schedule : Option GasSchedule) (gas floorGas7623 : Nat)
    (authorizationsLen : Nat) : Nat × Nat :=
  let pr := SafeMul authorizationsLen (GetOr schedule "TX_AUTH_COST" params.PerEmptyAccountCost)
  if pr.2 then (0, 0)
  else
    let g := SafeAdd gas pr.1
    if g.2 then (0, 0)
    else (g.1, floorGas7623)

/-- Tail of `CalcCustomIntrinsicGas`: the `accessListLen > 0` block,
followed by the authorizations block. -/
def intrinsicAccessListPart (schedule : Option GasSchedule) (gas floorGas7623 : Nat)
    (accessListLen storageKeysLen authorizationsLen : Nat) : Nat × Nat :=
  if accessListLen > 0 then
    let pr := SafeMul accessListLen (GetOr schedule "TX_ACCESS_LIST_ADDR" params.TxAccessListAddressGas)
    if pr.2 then (0, 0)
    else
      let g := SafeAdd gas pr.1
      if g.2 then (0, 0)
      else
        let pr2 := SafeMul storageKeysLen (GetOr schedule "TX_ACCESS_LIST_KEY" params.TxAccessListStorageKeyGas)
        if pr2.2 then (0, 0)
        else
          let g2 := SafeAdd g.1 pr2.1
          if g2.2 then (0, 0)
          else intrinsicAuthPart schedule g2.1 floorGas7623 authorizationsLen
  else intrinsicAuthPart schedule gas floorGas7623 authorizationsLen

/-- Tail of `CalcCustomIntrinsicGas`: the EIP-7623 floor block (inside the
`dataLen > 0` branch).  The token count `dataLen + 3*nz` is computed in
plain Go `uint64` arithmetic (it wraps); only the subsequent
multiplication and addition are checked. -/
def intrinsicFloorPart (schedule : Option GasSchedule) (gas floorGas7623 : Nat)
    (dataLen nz : Nat) (isEIP7623 : Bool)
    (accessListLen storageKeysLen authorizationsLen : Nat) : Nat × Nat :=
  if isEIP7623 then
    let tokenLen := add64 dataLen (mul64 3 nz)
    let dataGas := SafeMul tokenLen (GetOr schedule "TX_FLOOR_PER_TOKEN" params.TxTotalCostFloorPerToken)
    if dataGas.2 then (0, 0)
    else
      let fg := SafeAdd floorGas7623 dataGas.1
      if fg.2 then (0, 0)
      else intrinsicAccessListPart schedule gas fg.1 accessListLen storageKeysLen authorizationsLen
  else intrinsicAccessListPart schedule gas floorGas7623 accessListLen storageKeysLen authorizationsLen

/-- `vm.CalcCustomIntrinsicGas`: intrinsic gas with schedule overrides.
Early `return 0, 0` on a checked-arithmetic overflow is rendered as the
`(0, 0)` branches; the sequential tail blocks are factored into
`intrinsicFloorPart` / `intrinsicAccessListPart` / `intrinsicAuthPart`. -/
def CalcCustomIntrinsicGas (schedule : Option GasSchedule) (data : List Nat)
    (accessListLen storageKeysLen : Nat)
    (isContractCreation isEIP2 isEIP2028 isEIP3860 isEIP7623 isAATxn : Bool)
    (authorizationsLen : Nat) : Nat × Nat :=
  let gas :=
    if isContractCreation && isEIP2 then GetOr schedule "TX_CREATE_BASE" params.TxGasContractCreation
    else if isAATxn then params.TxAAGas
    else GetOr schedule "TX_BASE" params.TxGas
  let floorGas7623 := GetOr schedule "TX_BASE" params.TxGas
  let dataLen := data.length
  if dataLen > 0 then
    let nz := data.countP (fun b => b != 0)
    let nonZeroGas :=
      if isEIP2028 then GetOr schedule "TX_DATA_NONZERO" params.TxDataNonZeroGasEIP2028
      else GetOr schedule "TX_DATA_NONZERO" params.TxDataNonZeroGasFrontier
    let pr := SafeMul nz nonZeroGas
    if pr.2 then (0, 0)
    else
      let g := SafeAdd gas pr.1
      if g.2 then (0, 0)
      else
        let z := dataLen - nz
        let pr2 := SafeMul z (GetOr schedule "TX_DATA_ZERO" params.TxDataZeroGas)
        if pr2.2 then (0, 0)
        else
          let g2 := SafeAdd g.1 pr2.1
          if g2.2 then (0, 0)
          else
            if isContractCreation && isEIP3860 then
              let numWords := intrinsicToWordSize dataLen
              let pr3 := SafeMul numWords (GetOr schedule "TX_INIT_CODE_WORD" params.InitCodeWordGas)
              if pr3.2 then (0, 0)
              else
                let g3 := SafeAdd g2.1 pr3.1
                if g3.2 then (0, 0)
                else intrinsicFloorPart schedule g3.1 floorGas7623 dataLen nz isEIP7623
                  accessListLen storageKeysLen authorizationsLen
            else intrinsicFloorPart schedule g2.1 floorGas7623 dataLen nz isEIP7623
              accessListLen storageKeysLen authorizationsLen
  else intrinsicAccessListPart schedule gas floorGas7623 accessListLen storageKeysLen authorizationsLen

/-! `overlay/node/xatu/custom_gas.go` and the gas-override application in
`overlay/node/xatu/datasource.go` -/

/-- `xatu.CustomGasSchedule` (the user-supplied override map; the map may
be nil, and a nil `*CustomGasSchedule` pointer is `none` at use sites). -/
structure CustomGasSchedule where
  Overrides : Option (String → Option Nat)

/-- `(*CustomGasSchedule).Get`: the custom value if set, or the default. -/
def CustomGasSchedule.Get (c : Option CustomGasSchedule) (key : String) (defaultVal : Nat) : Nat :=
  match c with
  | some cs =>
      match cs.Overrides with
      | some ov =>
          match ov key with
          | some val => val
          | none => defaultVal
      | none => defaultVal
  | none => defaultVal

/-- `has` (datasource.go): whether a key exists in the schedule's override
map. -/
def has (schedule : Option CustomGasSchedule) (key : String) : Bool :=
  match schedule with
  | some cs =>
      match cs.Overrides with
      | some ov => (ov key).isSome
      | none => false
  | none => false

/-- `safeSub` (datasource.go): `a - b`, or `0` if `a < b`. -/
def safeSub (a b : Nat) : Nat := if a < b then 0 else a - b

/-- `calculateClearingRefund` (datasource.go): the SSTORE clearing refund
derived from custom gas values; returns 0 outright when the subtraction
would underflow. -/
def calculateClearingRefund (resetGas coldSloadCost : Nat) : Nat :=
  if coldSloadCost > resetGas then 0
  else (resetGas - coldSloadCost) + params.TxAccessListStorageKeyGas

/-- `sstoreGasParams` (datasource.go). -/
structure sstoreGasParams where
  coldSloadCost : Nat
  warmReadCost : Nat
  setGas : Nat
  resetGas : Nat
  clearingRefund : Nat
  sentryGas : Nat
deriving DecidableEq

/-- The SSTORE branch of `applyOverrides` (datasource.go lines 444-465):
the `sstoreGasParams` installed into the jump table's SSTORE dynamic-gas
slot, or `none` when the branch does not fire.  (The `jt[vm.SSTORE] != nil`
guard is dropped: every fork's base table carries an SSTORE entry.) -/
def sstoreOverrideParams (schedule : Option CustomGasSchedule) : Option sstoreGasParams :=
  if has schedule "SSTORE_SET" || has schedule "SSTORE_RESET" ||
      has schedule "SLOAD_COLD" || has schedule "SLOAD_WARM" then
    let coldSloadCost := CustomGasSchedule.Get schedule "SLOAD_COLD" params.ColdSloadCostEIP2929
    let warmReadCost := CustomGasSchedule.Get schedule "SLOAD_WARM" params.WarmStorageReadCostEIP2929
    let setGas := CustomGasSchedule.Get schedule "SSTORE_SET" params.SstoreSetGasEIP2200
    let resetGas := CustomGasSchedule.Get schedule "SSTORE_RESET" params.SstoreResetGasEIP2200
    let clearingRefund := calculateClearingRefund resetGas coldSloadCost
    some { coldSloadCost := coldSloadCost, warmReadCost := warmReadCost,
           setGas := setGas, resetGas := resetGas,
           clearingRefund := clearingRefund,
           sentryGas := params.SstoreSentryGasEIP2200 }
  else none

/-- Errors surfaced by the patched gas functions (`vm.ErrOutOfGas`,
`vm.ErrGasUintOverflow`, or an `errors.New` message). -/
inductive VmErr where
  | outOfGas
  | gasUintOverflow
  | errMsg (msg : String)
deriving DecidableEq

/-- State inputs of the SSTORE dynamic-gas closure: `slotCold` is the
`AddSlotToAccessList` slot-modified flag, `current`/`original` the
current and committed slot contents, `value` the value being stored
(uint256 contents; only zero/equality tests are performed on them). -/
structure SstoreEnv where
  slotCold : Bool
  current : Nat
  original : Nat
  value : Nat
deriving DecidableEq

/-- The closure produced by `makeCustomSstoreGas` (datasource.go).  The Go
pair `(0, err)` is rendered as `Except.error`; an `ok` result carries the
charged gas together with the net refund-counter delta accumulated via
`AddRefund`/`SubRefund`. -/
def customSstoreGas (p : sstoreGasParams) (env : SstoreEnv) (scopeGas : Nat) :
    Except VmErr (Nat × Int) :=
  if scopeGas ≤ p.sentryGas then
    .error (.errMsg "not enough gas for reentrancy sentry")
  else
    let cost := if env.slotCold then p.coldSloadCost else 0
    if env.current = env.value then
      .ok (add64 cost p.warmReadCost, 0)
    else if env.original = env.current then
      if env.original = 0 then
        .ok (add64 cost p.setGas, 0)
      else
        let refund : Int := if env.value = 0 then (p.clearingRefund : Int) else 0
        .ok (add64 cost (safeSub p.resetGas p.coldSloadCost), refund)
    else
      let refund1 : Int :=
        if env.original ≠ 0 then
          if env.current = 0 then -(p.clearingRefund : Int)
          else if env.value = 0 then (p.clearingRefund : Int)
          else 0
        else 0
      let refund2 : Int :=
        if env.original = env.value then
          if env.original = 0 then ((safeSub p.setGas p.warmReadCost : Nat) : Int)
          else ((safeSub (safeSub p.resetGas p.coldSloadCost) p.warmReadCost : Nat) : Int)
        else 0
      .ok (add64 cost p.warmReadCost, refund1 + refund2)

/-! Memory expansion and the CALL-family gas functions
(`overlay/node/xatu/datasource.go`). -/

/-- The slice of `vm.Memory` the gas functions touch: `Memory.Len()` and
the `LastGasCost` accessor pair. -/
structure Mem where
  len : Nat
  lastGasCost : Nat
deriving DecidableEq

/-- `toWordSize` (datasource.go): words required for `size` bytes, with
the upstream overflow guard. -/
def toWordSize (size : Nat) : Nat :=
  if size > maxUint64 - 31 then maxUint64 / 32 + 1
  else (size + 31) / 32

/-- `memoryGasCost` (datasource.go): quadratic memory-expansion gas.
Returns the fee delta and the memory with its updated `LastGasCost`.
The `newTotalFee - LastGasCost` subtraction is plain Go `uint64`
(`sub64`); all other operations here cannot exceed `2^64` thanks to the
`0x1FFFFFFFE0` guard. -/
def memoryGasCost (mem : Mem) (newMemSize : Nat) : Except VmErr (Nat × Mem) :=
  if newMemSize = 0 then .ok (0, mem)
  else if newMemSize > 0x1FFFFFFFE0 then .error .gasUintOverflow
  else
    let newMemSizeWords := toWordSize newMemSize
    let newMemSize' := newMemSizeWords * 32
    if newMemSize' > mem.len then
      let square := newMemSizeWords * newMemSizeWords
      let linCoef := newMemSizeWords * params.MemoryGas
      let quadCoef := square / params.QuadCoeffDiv
      let newTotalFee := linCoef + quadCoef
      let fee := sub64 newTotalFee mem.lastGasCost
      .ok (fee, { len := mem.len, lastGasCost := newTotalFee })
    else .ok (0, mem)

/-- `callGasParams` (datasource.go). -/
structure callGasParams where
  coldAccessCost : Nat
  warmAccessCost : Nat
  valueXferCost : Nat
  newAccountCost : Nat
deriving DecidableEq

/-- State and stack inputs of the CALL-family gas closures: fork flags,
the `AddAddressToAccessList` address-modified flag, the target's
`Empty`/`Exist` state, whether the value stack slot (`Stack.Back(2)`) is
non-zero, and the requested child gas (`Stack.Back(0)`, a uint256). -/
structure CallEnv where
  isTangerineWhistle : Bool
  isSpuriousDragon : Bool
  addrCold : Bool
  targetEmpty : Bool
  targetExists : Bool
  valueNonZero : Bool
  requestedGas : Nat
deriving DecidableEq

/-- Mutable state threaded through the inner calculators: the frame's
memory and `evm.SetCallGasTemp`. -/
structure CallState where
  mem : Mem
  callGasTemp : Nat
deriving DecidableEq

/-- `callGas` (datasource.go): the EIP-150 63/64ths rule.  `callCost` is
the requested amount from the stack (`*uint256`); `IsUint64` is the
`< 2^64` test. -/
def callGas (isEip150 : Bool) (availableGas base : Nat) (callCost : Nat) :
    Except VmErr Nat :=
  if isEip150 then
    if availableGas < base then .ok 0
    else
      let avail := availableGas - base
      let gas := avail - avail / 64
      if ¬ callCost < u64Mod ∨ gas < callCost then .ok gas
      else .ok callCost
  else if ¬ callCost < u64Mod then .error .gasUintOverflow
  else .ok callCost

/-- `gasCallInner` (datasource.go): CALL's inner calculator — new-account
and value-transfer terms (plain `uint64` adds), memory expansion, then the
63/64ths child allocation, with checked additions. -/
def gasCallInner (p : callGasParams) (hasValue : Bool) (env : CallEnv) (st : CallState)
    (scopeGas memorySize : Nat) : Except VmErr (Nat × CallState) :=
  let transfersValue := hasValue && env.valueNonZero
  let gas1 :=
    if env.isSpuriousDragon then
      if transfersValue && env.targetEmpty then p.newAccountCost else 0
    else
      if !env.targetExists then p.newAccountCost else 0
  let gas2 := if transfersValue then add64 gas1 p.valueXferCost else gas1
  match memoryGasCost st.mem memorySize with
  | .error e => .error e
  | .ok (memoryGas, mem') =>
    let g3 := SafeAdd gas2 memoryGas
    if g3.2 then .error .gasUintOverflow
    else
      match callGas env.isTangerineWhistle scopeGas g3.1 env.requestedGas with
      | .error e => .error e
      | .ok callGasTemp =>
        let g4 := SafeAdd g3.1 callGasTemp
        if g4.2 then .error .gasUintOverflow
        else .ok (g4.1, { mem := mem', callGasTemp := callGasTemp })

/-- `gasCallCodeInner` (datasource.go): CALLCODE's inner calculator
(memory first, value-transfer term, no new-account term). -/
def gasCallCodeInner (p : callGasParams) (env : CallEnv) (st : CallState)
    (scopeGas memorySize : Nat) : Except VmErr (Nat × CallState) :=
  match memoryGasCost st.mem memorySize with
  | .error e => .error e
  | .ok (memoryGas, mem') =>
    let gas1 := if env.valueNonZero then p.valueXferCost else 0
    let g2 := SafeAdd gas1 memoryGas
    if g2.2 then .error .gasUintOverflow
    else
      match callGas env.isTangerineWhistle scopeGas g2.1 env.requestedGas with
      | .error e => .error e
      | .ok callGasTemp =>
        let g3 := SafeAdd g2.1 callGasTemp
        if g3.2 then .error .gasUintOverflow
        else .ok (g3.1, { mem := mem', callGasTemp := callGasTemp })

/-- `gasDelegateCallInner` (datasource.go): memory expansion plus the
child allocation. -/
def gasDelegateCallInner (env : CallEnv) (st : CallState)
    (scopeGas memorySize : Nat) : Except VmErr (Nat × CallState) :=
  match memoryGasCost st.mem memorySize with
  | .error e => .error e
  | .ok (gas, mem') =>
    match callGas env.isTangerineWhistle scopeGas gas env.requestedGas with
    | .error e => .error e
    | .ok callGasTemp =>
      let g := SafeAdd gas callGasTemp
      if g.2 then .error .gasUintOverflow
      else .ok (g.1, { mem := mem', callGasTemp := callGasTemp })

/-- `gasStaticCallInner` (datasource.go): identical shape to
`gasDelegateCallInner`. -/
def gasStaticCallInner (env : CallEnv) (st : CallState)
    (scopeGas memorySize : Nat) : Except VmErr (Nat × CallState) :=
  match memoryGasCost st.mem memorySize with
  | .error e => .error e
  | .ok (gas, mem') =>
    match callGas env.isTangerineWhistle scopeGas gas env.requestedGas with
    | .error e => .error e
    | .ok callGasTemp =>
      let g := SafeAdd gas callGasTemp
      if g.2 then .error .gasUintOverflow
      else .ok (g.1, { mem := mem', callGasTemp := callGasTemp })

/-- The closure produced by `makeCustomCallGasEIP2929` (datasource.go):
on a cold target, charge `safeSub(cold, warm)` up front (OOG if the frame
cannot afford it), run the inner calculator on the residual, and report
`inner + coldCost` (plain `uint64` add); warm targets pass through. -/
def customCallGasEIP2929 (p : callGasParams) (hasValue : Bool) (env : CallEnv)
    (st : CallState) (scopeGas memorySize : Nat) : Except VmErr (Nat × CallState) :=
  let coldCost := safeSub p.coldAccessCost p.warmAccessCost
  if env.addrCold then
    if scopeGas < coldCost then .error .outOfGas
    else
      match gasCallInner p hasValue env st (scopeGas - coldCost) memorySize with
      | .error e => .error e
      | .ok (gas, st') => .ok (add64 gas coldCost, st')
  else gasCallInner p hasValue env st scopeGas memorySize

/-- The closure produced by `makeCustomCallCodeGasEIP2929`. -/
def customCallCodeGasEIP2929 (p : callGasParams) (env : CallEnv)
    (st : CallState) (scopeGas memorySize : Nat) : Except VmErr (Nat × CallState) :=
  let coldCost := safeSub p.coldAccessCost p.warmAccessCost
  if env.addrCold then
    if scopeGas < coldCost then .error .outOfGas
    else
      match gasCallCodeInner p env st (scopeGas - coldCost) memorySize with
      | .error e => .error e
      | .ok (gas, st') => .ok (add64 gas coldCost, st')
  else gasCallCodeInner p env st scopeGas memorySize

/-- The closure produced by `makeCustomDelegateCallGasEIP2929`. -/
def customDelegateCallGasEIP2929 (coldAccessCost warmAccessCost : Nat) (env : CallEnv)
    (st : CallState) (scopeGas memorySize : Nat) : Except VmErr (Nat × CallState) :=
  let coldCost := safeSub coldAccessCost warmAccessCost
  if env.addrCold then
    if scopeGas < coldCost then .error .outOfGas
    else
      match gasDelegateCallInner env st (scopeGas - coldCost) memorySize with
      | .error e => .error e
      | .ok (gas, st') => .ok (add64 gas coldCost, st')
  else gasDelegateCallInner env st scopeGas memorySize

/-- The closure produced by `makeCustomStaticCallGasEIP2929`. -/
def customStaticCallGasEIP2929 (coldAccessCost warmAccessCost : Nat) (env : CallEnv)
    (st : CallState) (scopeGas memorySize : Nat) : Except VmErr (Nat × CallState) :=
  let coldCost := safeSub coldAccessCost warmAccessCost
  if env.addrCold then
    if scopeGas < coldCost then .error .outOfGas
    else
      match gasStaticCallInner env st (scopeGas - coldCost) memorySize with
      | .error e => .error e
      | .ok (gas, st') => .ok (add64 gas coldCost, st')
  else gasStaticCallInner env st scopeGas memorySize

/-- The closure produced by `makeCustomCopyGas` (datasource.go): memory
expansion plus a checked per-word copy charge.  `words256` is the stack
word at `Back(stackpos)` (a uint256); the stack position itself does not
affect the arithmetic. -/
def customCopyGas (copyGas : Nat) (words256 : Nat) (mem : Mem) (memorySize : Nat) :
    Except VmErr (Nat × Mem) :=
  match memoryGasCost mem memorySize with
  | .error e => .error e
  | .ok (gas, mem') =>
    if ¬ words256 < u64Mod then .error .gasUintOverflow
    else
      let words := SafeMul (toWordSize words256) copyGas
      if words.2 then .error .gasUintOverflow
      else
        let g := SafeAdd gas words.1
        if g.2 then .error .gasUintOverflow
        else .ok (g.1, mem')

/-- The closure produced by `makeCustomExpGas` (datasource.go): the
product `expByteLen * byteGas` is plain Go `uint64` arithmetic (the
upstream "no overflow check required" comment assumes the default byte
cost, so it wraps for large custom values); only the final addition of
the base cost is checked.  `expByteLen` is
`common.BitLenToByteLen(callContext.Stack.Back(1).BitLen())`. -/
def customExpGas (baseGas byteGas : Nat) (expByteLen : Nat) : Except VmErr Nat :=
  let gas := mul64 expByteLen byteGas
  let g := SafeAdd gas baseGas
  if g.2 then .error .gasUintOverflow
  else .ok g.1

/-- The closure produced by `makeCustomLogGas` (datasource.go): the
requested-size uint64 overflow test, memory expansion, a checked addition
of the base cost, a checked addition of the plain-uint64 topic product
`numTopics * topicGas`, a checked data-size multiplication, and a final
checked addition.  `requestedSize256` is the stack word at `Back(1)`. -/
def customLogGas (numTopics baseGas topicGas dataGas : Nat) (requestedSize256 : Nat)
    (mem : Mem) (memorySize : Nat) : Except VmErr (Nat × Mem) :=
  if ¬ requestedSize256 < u64Mod then .error .gasUintOverflow
  else
    match memoryGasCost mem memorySize with
    | .error e => .error e
    | .ok (gas, mem') =>
      let g1 := SafeAdd gas baseGas
      if g1.2 then .error .gasUintOverflow
      else
        let g2 := SafeAdd g1.1 (mul64 numTopics topicGas)
        if g2.2 then .error .gasUintOverflow
        else
          let msg := SafeMul requestedSize256 dataGas
          if msg.2 then .error .gasUintOverflow
          else
            let g3 := SafeAdd g2.1 msg.1
            if g3.2 then .error .gasUintOverflow
            else .ok (g3.1, mem')

/-! `overlay/node/xatu/tracer.go`: the structured-log tracer.  The
embedding covers the gas-accounting state (`logs` with their `Gas`,
`GasCost`, `GasUsed`, `Depth` fields, and `pendingIdx`).  The
`CallToAddress` / `ReturnData` / `Refund` / `Error` fields and the
`pendingCreates` resolution are omitted: `resolvePendingCreates` writes
only the `CallToAddress` field and none of those fields is ever read by
the tracer, so they do not interact with the gas fields. -/

/-- The gas-relevant fields of `execution.StructLog`. -/
structure StructLog where
  pc : Nat
  op : Nat
  gas : Nat
  gasCost : Nat
  gasUsed : Nat
  depth : Nat
deriving DecidableEq

/-- Default log used with `List.getD` (reads are always in bounds). -/
def dfltLog : StructLog := { pc := 0, op := 0, gas := 0, gasCost := 0, gasUsed := 0, depth := 0 }

/-- One `OnOpcode` callback: `(pc, opcode, gas, cost, depth)`. -/
structure OpEvent where
  pc : Nat
  op : Nat
  gas : Nat
  cost : Nat
  depth : Nat
deriving DecidableEq

/-- Default event used with `List.getD`. -/
def dfltEvent : OpEvent := { pc := 0, op := 0, gas := 0, cost := 0, depth := 0 }

/-- The gas-relevant state of `StructLogTracer`. -/
structure TracerState where
  logs : List StructLog
  pendingIdx : List Int
deriving DecidableEq

/-- A fresh tracer (`NewStructLogTracer`): empty logs, empty pending
array. -/
def initTracer : TracerState := { logs := [], pendingIdx := [] }

/-- The `for len(t.pendingIdx) <= depth` extension loop: append `-1`
sentinels until the slice covers `depth`. -/
def extendPendingIdx (p : List Int) (depth : Nat) : List Int :=
  p ++ List.replicate (depth + 1 - p.length) (-1)

/-- The `for d := len(p)-1; d > depth; d--` clearing loop: every entry at
an index strictly greater than `depth` becomes `-1`. -/
def clearDeeper (p : List Int) (depth : Nat) : List Int :=
  p.take (depth + 1) ++ List.replicate (p.length - (depth + 1)) (-1)

/-- `updatePendingGasUsed` (tracer.go): extend and clear the pending
array, then — if the entry at `depth` is a live index — set that log's
`GasUsed` to `log.Gas - currentGas` (Go `uint64` subtraction). -/
def updatePendingGasUsed (t : TracerState) (depth : Nat) (currentGas : Nat) : TracerState :=
  let p := clearDeeper (extendPendingIdx t.pendingIdx depth) depth
  let prevIdx := p.getD depth (-1)
  if 0 ≤ prevIdx ∧ prevIdx.toNat < t.logs.length then
    let l := t.logs.getD prevIdx.toNat dfltLog
    { logs := t.logs.set prevIdx.toNat { l with gasUsed := sub64 l.gas currentGas },
      pendingIdx := p }
  else { logs := t.logs, pendingIdx := p }

/-- `setPendingIdx` (tracer.go). -/
def setPendingIdx (p : List Int) (depth : Nat) (logIdx : Nat) : List Int :=
  (extendPendingIdx p depth).set depth (logIdx : Int)

/-- `OnOpcode` (tracer.go): update the pending log's `GasUsed`, build the
new entry with `GasUsed` defaulted to the reported cost, sanitise
`GasCost` (cap at remaining gas), append, and record the entry as pending
at its depth. -/
def onOpcode (t : TracerState) (e : OpEvent) : TracerState :=
  let t1 := updatePendingGasUsed t e.depth e.gas
  let log : StructLog :=
    { pc := e.pc, op := e.op, gas := e.gas, gasCost := e.cost, gasUsed := e.cost,
      depth := e.depth }
  let log := if log.gasCost > log.gas then { log with gasCost := log.gas } else log
  let logIdx := t1.logs.length
  { logs := t1.logs ++ [log], pendingIdx := setPendingIdx t1.pendingIdx e.depth logIdx }

/-- Run the tracer over a whole opcode stream. -/
def runTracer (evs : List OpEvent) : TracerState := evs.foldl onOpcode initTracer

/-- The event at index `i` (default out of range). -/
def evAt (evs : List OpEvent) (i : Nat) : OpEvent := evs.getD i dfltEvent

/-- The recorded log at index `i` (default out of range). -/
def logAt (t : TracerState) (i : Nat) : StructLog := t.logs.getD i dfltLog

/-- The pending log index at depth `d` (`-1` beyond the slice, matching
its `-1` initialisation). -/
def pendAt (p : List Int) (d : Nat) : Int := p.getD d (-1)

/-- Event `j` closes event `i`: same depth, `i < j`, and every event
strictly between them is strictly deeper.  This is exactly the situation
in which `i` is the pending entry at its depth when `j` arrives. -/
def closes (evs : List OpEvent) (i j : Nat) : Prop :=
  i < j ∧ j < evs.length ∧ (evAt evs j).depth = (evAt evs i).depth ∧
    ∀ k, i < k → k < j → (evAt evs i).depth < (evAt evs k).depth

/-- Invariant tying a tracer state to the opcode stream that produced it:
log fields mirror their events (`gasUsed` aside), the pending array is
sound and complete for the open entries, every closed entry carries the
gas difference to its closing event, and every open entry keeps the raw
reported cost. -/
structure TracerInv (evs : List OpEvent) (t : TracerState) : Prop where
  len_eq : t.logs.length = evs.length
  gas_eq : ∀ i, i < evs.length → (logAt t i).gas = (evAt evs i).gas
  depth_eq : ∀ i, i < evs.length → (logAt t i).depth = (evAt evs i).depth
  cost_eq : ∀ i, i < evs.length →
    (logAt t i).gasCost =
      if (evAt evs i).gas < (evAt evs i).cost then (evAt evs i).gas else (evAt evs i).cost
  pend_sound : ∀ (d v : Nat), pendAt t.pendingIdx d = (v : Int) →
    v < evs.length ∧ (evAt evs v).depth = d ∧
      ∀ k, v < k → k < evs.length → d < (evAt evs k).depth
  pend_complete : ∀ i, i < evs.length →
    (∀ k, i < k → k < evs.length → (evAt evs i).depth < (evAt evs k).depth) →
    pendAt t.pendingIdx ((evAt evs i).depth) = (i : Int)
  closed_gasUsed : ∀ i j, closes evs i j →
    (logAt t i).gasUsed = sub64 (evAt evs i).gas (evAt evs j).gas
  open_gasUsed : ∀ i, i < evs.length → (∀ j, ¬ closes evs i j) →
    (logAt t i).gasUsed = (evAt evs i).cost

/-- Schedule used to exhibit the unchecked EIP-7623 token-count wrap in
`CalcCustomIntrinsicGas`. -/
def txOverflowSchedule : Option GasSchedule :=
  some ⟨some fun k =>
    if k = "TX_BASE" then some 5 else
    if k = "TX_DATA_NONZERO" then some 0 else
    if k = "TX_DATA_ZERO" then some 0 else
    if k = "TX_FLOOR_PER_TOKEN" then some 1 else
    if k = "TX_AUTH_COST" then some 0 else none⟩

/-! Theorems. -/

/-- Unfolding lemma for the wrapped `base + perWord * words` shape. -/
theorem add64_mul64 (a b c : Nat) : add64 a (mul64 b c) = (a + b * c) % u64Mod := by
  unfold add64 mul64
  conv_lhs => rw [Nat.add_mod]
  conv_rhs => rw [Nat.add_mod]
  rw [Nat.mod_mod_of_dvd _ dvd_rfl]

/-- `mul64` ignores a pre-reduction of its left operand. -/
theorem mul64_mod_left (a b : Nat) : mul64 (a % u64Mod) b = mul64 a b := by
  unfold mul64
  conv_lhs => rw [Nat.mul_mod]
  conv_rhs => rw [Nat.mul_mod]
  rw [Nat.mod_mod_of_dvd _ dvd_rfl]

/-- `mul64 1 a` is reduction modulo `2^64`. -/
theorem mul64_one_left (a : Nat) : mul64 1 a = a % u64Mod := by
  simp [mul64]

/-- C10: gas lookup is total in the absence of a schedule — `GetOr` on a
nil `*GasSchedule` or on a schedule with a nil override map returns the
supplied default for every key, and `PrecompileGasWithOverrides` with a
nil schedule returns the given default gas for every precompile name and
input. -/
theorem C10_theorem :
    (∀ key defaultVal, GetOr none key defaultVal = defaultVal) ∧
    (∀ key defaultVal, GetOr (some ⟨none⟩) key defaultVal = defaultVal) ∧
    (∀ dG1 dG2 name input defaultGas,
      PrecompileGasWithOverrides dG1 dG2 none name input defaultGas = defaultGas) :=
  ⟨fun _ _ => rfl, fun _ _ => rfl, fun _ _ _ _ _ => rfl⟩

/-- C6: BLAKE2F gas — every input whose length is not 213 yields 0 gas;
a 213-byte input yields `base + perRound * u32be(input[0:4])` in uint64
arithmetic; among the lengths 0, 212, 213, 214 only 213 can charge
positive gas. -/
theorem C6_theorem :
    (∀ schedule (input : List Nat), input.length ≠ 213 →
      precompileBlake2f schedule input = 0) ∧
    (∀ schedule (input : List Nat), input.length = 213 →
      precompileBlake2f schedule input =
        add64 (GetOr schedule "PC_BLAKE2F_BASE" 0)
          (mul64 (GetOr schedule "PC_BLAKE2F_PER_ROUND" 1) (u32be input))) ∧
    (∀ schedule, precompileBlake2f schedule ([] : List Nat) = 0 ∧
      precompileBlake2f schedule (List.replicate 212 0) = 0 ∧
      precompileBlake2f schedule (List.replicate 214 0) = 0) ∧
    0 < precompileBlake2f (some ⟨some fun _ => none⟩) (1 :: List.replicate 212 0) := by
  have hlen : ∀ schedule (input : List Nat), input.length ≠ 213 →
      precompileBlake2f schedule input = 0 := by
    intro schedule input h
    simp [precompileBlake2f, h]
  refine ⟨hlen, ?_, ?_, ?_⟩
  · intro schedule input h
    simp [precompileBlake2f, h]
  · intro schedule
    refine ⟨hlen _ _ (by simp), hlen _ _ (by simp), hlen _ _ (by simp)⟩
  · decide

/-- C6 witness: the length rejection evaluated at a concrete short
input. -/
theorem C6_witness :
    ([1, 2] : List Nat).length ≠ 213 ∧ precompileBlake2f none [1, 2] = 0 :=
  ⟨by decide, C6_theorem.1 none [1, 2] (by decide)⟩

/-- C3 counterexample: the SHA-256 precompile gas computation does not
signal overflow — with `PC_SHA256_PER_WORD = 2^63` and a 33-byte input
(2 words) the product is `2^64`, and the function silently returns the
wrapped value 0 instead of a fatal gas error, contradicting the claim
that `base + per_word * ceil(len/32)` signals overflow for every schedule
value and input length. -/
theorem C3_counterexample :
    PrecompileGasWithOverrides [] []
        (some ⟨some fun k =>
          if k = "PC_SHA256_PER_WORD" then some (2 ^ 63) else
          if k = "PC_SHA256_BASE" then some 0 else none⟩)
        "SHA256" (List.replicate 33 0) 0 = 0 ∧
    (0 : Nat) ≠ 0 + 2 ^ 63 * (((List.replicate 33 (0 : Nat)).length + 31) / 32) := by
  constructor
  · decide
  · decide

/-- C3 (amended): subtractions in the patched gas functions use the
saturating `safeSub`, and the checked operations of the dynamic-opcode
gas functions — the copy family's per-word multiplication, LOG's
data-size multiplication, EXP's base addition — signal
`ErrGasUintOverflow` on overflow; but not all of their arithmetic is
checked: EXP's `expByteLen * EXP_BYTE` product and LOG's
`numTopics * LOG_TOPIC` product wrap modulo `2^64` without signalling,
and the precompile computations `base + per_word * ceil(len/32)` and
`k * per_point * discount[k] / 1000` are plain wrapping uint64 arithmetic
with no error channel at all. -/
theorem C3_amended :
    (∀ a b, a < b → safeSub a b = 0) ∧
    (∀ copyGas words256 mem, words256 < u64Mod →
      u64Mod ≤ toWordSize words256 * copyGas →
      customCopyGas copyGas words256 mem 0 = .error .gasUintOverflow) ∧
    (∀ numTopics dataGas requestedSize mem, requestedSize < u64Mod →
      u64Mod ≤ requestedSize * dataGas →
      customLogGas numTopics 0 0 dataGas requestedSize mem 0 = .error .gasUintOverflow) ∧
    (∀ baseGas byteGas expByteLen,
      u64Mod ≤ mul64 expByteLen byteGas + baseGas →
      customExpGas baseGas byteGas expByteLen = .error .gasUintOverflow) ∧
    (∀ byteGas expByteLen,
      customExpGas 0 byteGas expByteLen = .ok (expByteLen * byteGas % u64Mod)) ∧
    (∀ numTopics topicGas,
      customLogGas numTopics 0 topicGas 0 0 ⟨0, 0⟩ 0 =
        .ok (numTopics * topicGas % u64Mod, ⟨0, 0⟩)) ∧
    (∀ schedule baseKey perWordKey (input : List Nat) defaultBase defaultPerWord,
      precompileBasePerWord schedule baseKey perWordKey input defaultBase defaultPerWord =
        (GetOr schedule baseKey defaultBase +
          GetOr schedule perWordKey defaultPerWord * ((input.length + 31) / 32)) % u64Mod) ∧
    (∀ dG1 dG2 schedule mulGasKey defaultMulGas, 1 < dG1.length →
      precompileMsm dG1 dG2 schedule mulGasKey (List.replicate 160 0) 160 defaultMulGas =
        GetOr schedule mulGasKey defaultMulGas * dG1.getD 0 0 % u64Mod / 1000) := by
  refine ⟨?_, ?_, ?_, ?_, ?_, ?_, ?_, ?_⟩
  · intro a b h
    simp [safeSub, h]
  · intro copyGas words256 mem h1 h2
    have hmem : memoryGasCost mem 0 = .ok (0, mem) := by
      simp [memoryGasCost]
    have hm : (SafeMul (toWordSize words256) copyGas).2 = true := by
      simpa [SafeMul] using h2
    simp [customCopyGas, hmem, hm, h1]
  · intro numTopics dataGas requestedSize mem h1 h2
    have hmem : memoryGasCost mem 0 = .ok (0, mem) := by
      simp [memoryGasCost]
    have hm : (SafeMul requestedSize dataGas).2 = true := by
      simpa [SafeMul] using h2
    simp [customLogGas, hmem, hm, h1, SafeAdd, add64, mul64, u64Mod]
  · intro baseGas byteGas expByteLen h
    have hm : (SafeAdd (mul64 expByteLen byteGas) baseGas).2 = true := by
      simpa [SafeAdd] using h
    simp only [customExpGas]
    rw [hm, if_pos (rfl : (true : Bool) = true)]
  · intro byteGas expByteLen
    have hlt : expByteLen * byteGas % u64Mod < u64Mod :=
      Nat.mod_lt _ (by norm_num [u64Mod])
    have hflag : (SafeAdd (mul64 expByteLen byteGas) 0).2 = false := by
      simp only [SafeAdd, mul64, Nat.add_zero, decide_eq_false_iff_not, not_le]
      exact hlt
    simp only [customExpGas]
    rw [hflag, if_neg Bool.false_ne_true]
    simp [SafeAdd, add64, mul64, Nat.mod_mod_of_dvd _ dvd_rfl]
  · intro numTopics topicGas
    have hmem : memoryGasCost ⟨0, 0⟩ 0 = .ok (0, ⟨0, 0⟩) := by
      simp [memoryGasCost]
    have hlt : numTopics * topicGas % u64Mod < u64Mod :=
      Nat.mod_lt _ (by norm_num [u64Mod])
    have e1 : (SafeAdd 0 0).2 = false := by decide
    have e1v : (SafeAdd 0 0).1 = 0 := by decide
    have e2 : (SafeAdd 0 (mul64 numTopics topicGas)).2 = false := by
      simp only [SafeAdd, mul64, Nat.zero_add, decide_eq_false_iff_not, not_le]
      exact hlt
    have e2v : (SafeAdd 0 (mul64 numTopics topicGas)).1 = numTopics * topicGas % u64Mod := by
      simp [SafeAdd, add64, mul64, Nat.mod_mod_of_dvd _ dvd_rfl]
    have e3 : (SafeMul 0 0).2 = false := by decide
    have e3v : (SafeMul 0 0).1 = 0 := by decide
    have e4 : (SafeAdd (numTopics * topicGas % u64Mod) 0).2 = false := by
      simp only [SafeAdd, Nat.add_zero, decide_eq_false_iff_not, not_le]
      exact hlt
    have e4v : (SafeAdd (numTopics * topicGas % u64Mod) 0).1 =
        numTopics * topicGas % u64Mod := by
      simp [SafeAdd, add64, Nat.mod_mod_of_dvd _ dvd_rfl]
    simp only [customLogGas, hmem]
    rw [if_neg (by simp [u64Mod])]
    rw [e1, if_neg Bool.false_ne_true, e1v, e2, if_neg Bool.false_ne_true, e2v,
      e3, if_neg Bool.false_ne_true, e3v, e4, if_neg Bool.false_ne_true, e4v]
  · intro schedule baseKey perWordKey input defaultBase defaultPerWord
    simp only [precompileBasePerWord]
    rw [add64_mul64]
  · intro dG1 dG2 schedule mulGasKey defaultMulGas h
    have h160 : (List.replicate 160 (0 : Nat)).length / 160 = 1 := by simp
    simp only [precompileMsm, h160, if_true, Nat.sub_self]
    rw [if_pos h, mul64_one_left, mul64_mod_left]
    rfl

/-- C3 witness: the checked copy-family multiplication signalling
overflow at a concrete schedule value (`COPY = 2^63`, 33 bytes to copy =
2 words). -/
theorem C3_witness :
    customCopyGas (2 ^ 63) 33 ⟨0, 0⟩ 0 = .error .gasUintOverflow :=
  C3_amended.2.1 (2 ^ 63) 33 ⟨0, 0⟩ (by decide) (by decide)

/-- C2 counterexample: with `available = 63`, `base = 0` and a requested
amount too large for uint64, the EIP-150 rule passes 63 to the child
(`63 - 63/64 = 63`), not 62 as the claim states. -/
theorem C2_counterexample :
    callGas true 63 0 (2 ^ 64) = .ok 63 ∧ (63 : Nat) ≠ 62 :=
  ⟨rfl, by decide⟩

/-- C2 (amended): under EIP-150, `callGas` returns 0 when
`available < base` and otherwise `min(requested, a - a/64)` with
`a = available - base`; in particular `available = 64, base = 0` passes
63 and `available = 63, base = 0` passes 63. -/
theorem C2_amended :
    (∀ availableGas base callCost, availableGas < u64Mod →
      callGas true availableGas base callCost =
        .ok (if availableGas < base then 0
             else min callCost (availableGas - base - (availableGas - base) / 64))) ∧
    callGas true 64 0 (2 ^ 64) = .ok 63 ∧
    callGas true 63 0 (2 ^ 64) = .ok 63 := by
  refine ⟨?_, rfl, rfl⟩
  intro availableGas base callCost hlt
  unfold callGas
  rw [if_pos (rfl : (true : Bool) = true)]
  by_cases hb : availableGas < base
  · rw [if_pos hb, if_pos hb]
  · rw [if_neg hb, if_neg hb]
    by_cases hc : ¬ callCost < u64Mod ∨ availableGas - base - (availableGas - base) / 64 < callCost
    · rw [if_pos hc]
      congr 1
      rcases hc with hc | hc
      · rw [min_eq_right (by omega)]
      · rw [min_eq_right (le_of_lt hc)]
    · rw [if_neg hc]
      push_neg at hc
      congr 1
      rw [min_eq_left hc.2]

/-- C2 witness: the amended 63/64ths rule evaluated at a concrete point
(`available = 100`, `base = 10`, `requested = 50` passes 50). -/
theorem C2_witness : callGas true 100 10 50 = .ok 50 := by
  have h := C2_amended.1 100 10 50 (by norm_num [u64Mod])
  simpa using h

/-- C1 counterexample: with `SSTORE_RESET = 1000` and `SLOAD_COLD = 2000`
the installed clearing refund is 0, not `max(0, 1000 - 2000) + 1900 =
1900` as the claim states. -/
theorem C1_counterexample :
    (sstoreOverrideParams (some ⟨some fun k =>
        if k = "SSTORE_RESET" then some 1000 else
        if k = "SLOAD_COLD" then some 2000 else none⟩)).map
      sstoreGasParams.clearingRefund = some 0 ∧
    ¬ ((0 : Int) = max 0 ((1000 : Int) - 2000) + 1900) := by
  exact ⟨by decide, by decide⟩

/-- C1 (amended): whenever a schedule overrides any of SSTORE_SET,
SSTORE_RESET, SLOAD_COLD or SLOAD_WARM, the SSTORE dynamic-gas function
is installed with a derived clearing refund equal to 0 when
`SSTORE_RESET < SLOAD_COLD` and to `(SSTORE_RESET - SLOAD_COLD) + 1900`
otherwise. -/
theorem C1_amended (schedule : Option CustomGasSchedule)
    (h : (has schedule "SSTORE_SET" || has schedule "SSTORE_RESET" ||
          has schedule "SLOAD_COLD" || has schedule "SLOAD_WARM") = true) :
    ∃ p : sstoreGasParams, sstoreOverrideParams schedule = some p ∧
      p.resetGas = CustomGasSchedule.Get schedule "SSTORE_RESET" params.SstoreResetGasEIP2200 ∧
      p.coldSloadCost = CustomGasSchedule.Get schedule "SLOAD_COLD" params.ColdSloadCostEIP2929 ∧
      p.clearingRefund =
        (if p.resetGas < p.coldSloadCost then 0 else p.resetGas - p.coldSloadCost + 1900) := by
  unfold sstoreOverrideParams
  rw [if_pos h]
  exact ⟨_, rfl, rfl, rfl, rfl⟩

/-- C1 witness: the amended refund formula evaluated at
`SSTORE_RESET = 6000`, `SLOAD_COLD = 2000` (refund `4000 + 1900`). -/
theorem C1_witness :
    ∃ p : sstoreGasParams,
      sstoreOverrideParams (some ⟨some fun k =>
        if k = "SSTORE_RESET" then some 6000 else
        if k = "SLOAD_COLD" then some 2000 else none⟩) = some p ∧
      p.clearingRefund = 5900 := by
  obtain ⟨p, hp, hr, hc, hf⟩ := C1_amended
    (some ⟨some fun k =>
      if k = "SSTORE_RESET" then some 6000 else
      if k = "SLOAD_COLD" then some 2000 else none⟩) (by decide)
  refine ⟨p, hp, ?_⟩
  rw [hf, hr, hc]
  decide

/-- C5: the patched SSTORE dynamic-gas function installed from any
schedule fails with the reentrancy-sentry error whenever the remaining
scope gas is at most 2300 (the sentry is the fixed
`params.SstoreSentryGasEIP2200`), and proceeds to an ordinary gas result
whenever scope gas exceeds 2300.  The Go return `(0, err)` is modelled by
`Except.error`. -/
theorem C5_theorem (schedule : Option CustomGasSchedule) (p : sstoreGasParams)
    (env : SstoreEnv) (scopeGas : Nat)
    (hp : sstoreOverrideParams schedule = some p) :
    (scopeGas ≤ 2300 →
      customSstoreGas p env scopeGas =
        .error (.errMsg "not enough gas for reentrancy sentry")) ∧
    (2300 < scopeGas → ∃ g r, customSstoreGas p env scopeGas = .ok (g, r)) := by
  have hs : p.sentryGas = 2300 := by
    unfold sstoreOverrideParams at hp
    split at hp
    · injection hp with hp'
      rw [← hp']
      rfl
    · simp at hp
  constructor
  · intro hle
    unfold customSstoreGas
    rw [hs, if_pos hle]
  · intro hgt
    unfold customSstoreGas
    rw [hs, if_neg (by omega)]
    dsimp only
    split
    · exact ⟨_, _, rfl⟩
    · split
      · split
        · exact ⟨_, _, rfl⟩
        · exact ⟨_, _, rfl⟩
      · exact ⟨_, _, rfl⟩

/-- C5 witness: the sentry fires at exactly `scopeGas = 2300` for the
params installed from the schedule `{SSTORE_SET = 1}`. -/
theorem C5_witness :
    customSstoreGas ⟨2100, 100, 1, 5000, 4800, 2300⟩ ⟨true, 0, 0, 1⟩ 2300 =
      .error (.errMsg "not enough gas for reentrancy sentry") :=
  (C5_theorem (some ⟨some fun k => if k = "SSTORE_SET" then some 1 else none⟩)
    ⟨2100, 100, 1, 5000, 4800, 2300⟩ ⟨true, 0, 0, 1⟩ 2300 (by decide)).1 (by norm_num)

/-- Counting the non-zero bytes of an all-ones byte string. -/
theorem countP_replicate_one (n : Nat) :
    (List.replicate n (1 : Nat)).countP (fun b => b != 0) = n := by
  induction n with
  | zero => rfl
  | succ n ih => simp [List.replicate_succ, List.countP_cons, ih]

/-- C9 counterexample: with 2^62 non-zero data bytes the EIP-7623 token
count `dataLen + 3*nz = 2^64` overflows uint64 (an unchecked intermediate
addition), yet `CalcCustomIntrinsicGas` returns `(5, 5)` — not `(0, 0)` —
under the schedule `{TX_BASE = 5, TX_DATA_NONZERO = 0, TX_DATA_ZERO = 0,
TX_FLOOR_PER_TOKEN = 1, TX_AUTH_COST = 0}`, refuting the claim that every
intermediate overflow yields gas 0. -/
theorem C9_counterexample :
    CalcCustomIntrinsicGas txOverflowSchedule (List.replicate (2 ^ 62) 1) 0 0
      false true true true true false 0 = (5, 5) ∧
    u64Mod ≤ (List.replicate (2 ^ 62) (1 : Nat)).length +
      3 * (List.replicate (2 ^ 62) (1 : Nat)).countP (fun b => b != 0) ∧
    ((5, 5) : Nat × Nat) ≠ (0, 0) := by
  have hlen : (List.replicate (2 ^ 62) (1 : Nat)).length = 2 ^ 62 :=
    List.length_replicate _ _
  have hnz := countP_replicate_one (2 ^ 62)
  refine ⟨?_, ?_, by decide⟩
  · simp only [CalcCustomIntrinsicGas]
    rw [hlen, hnz]
    decide
  · rw [hlen, hnz]
    decide

/-- The authorizations block returns `(0, 0)` when its checked product
overflows. -/
theorem intrinsicAuthPart_mul_overflow (schedule : Option GasSchedule)
    (gas floorGas7623 authLen : Nat)
    (h : u64Mod ≤ authLen * GetOr schedule "TX_AUTH_COST" params.PerEmptyAccountCost) :
    intrinsicAuthPart schedule gas floorGas7623 authLen = (0, 0) := by
  simp only [intrinsicAuthPart]
  split
  · rfl
  · exfalso
    rename_i hf
    exact hf (by simpa only [SafeMul, decide_eq_true_eq] using h)

/-- The access-list block returns `(0, 0)` when its checked address
product overflows. -/
theorem intrinsicAccessListPart_addr_mul_overflow (schedule : Option GasSchedule)
    (gas floorGas7623 accessListLen storageKeysLen authLen : Nat)
    (ha : 0 < accessListLen)
    (h : u64Mod ≤ accessListLen *
      GetOr schedule "TX_ACCESS_LIST_ADDR" params.TxAccessListAddressGas) :
    intrinsicAccessListPart schedule gas floorGas7623 accessListLen storageKeysLen authLen
      = (0, 0) := by
  simp only [intrinsicAccessListPart]
  rw [if_pos ha]
  split
  · rfl
  · exfalso
    rename_i hf
    exact hf (by simpa only [SafeMul, decide_eq_true_eq] using h)

/-- The access-list block returns `(0, 0)` when its checked storage-key
product overflows. -/
theorem intrinsicAccessListPart_key_mul_overflow (schedule : Option GasSchedule)
    (gas floorGas7623 accessListLen storageKeysLen authLen : Nat)
    (ha : 0 < accessListLen)
    (h : u64Mod ≤ storageKeysLen *
      GetOr schedule "TX_ACCESS_LIST_KEY" params.TxAccessListStorageKeyGas) :
    intrinsicAccessListPart schedule gas floorGas7623 accessListLen storageKeysLen authLen
      = (0, 0) := by
  simp only [intrinsicAccessListPart]
  rw [if_pos ha]
  split
  · rfl
  · split
    · rfl
    · split
      · rfl
      · exfalso
        rename_i hf
        exact hf (by simpa only [SafeMul, decide_eq_true_eq] using h)

/-- The EIP-7623 floor block returns `(0, 0)` when its checked
multiplication (taken on the wrapped token count) overflows. -/
theorem intrinsicFloorPart_mul_overflow (schedule : Option GasSchedule)
    (gas floorGas7623 dataLen nz accessListLen storageKeysLen authLen : Nat)
    (h : u64Mod ≤ add64 dataLen (mul64 3 nz) *
      GetOr schedule "TX_FLOOR_PER_TOKEN" params.TxTotalCostFloorPerToken) :
    intrinsicFloorPart schedule gas floorGas7623 dataLen nz true
      accessListLen storageKeysLen authLen = (0, 0) := by
  simp only [intrinsicFloorPart]
  rw [if_pos trivial]
  split
  · rfl
  · exfalso
    rename_i hf
    exact hf (by simpa only [SafeMul, decide_eq_true_eq] using h)

/-- The EIP-7623 floor block returns `(0, 0)` when its checked addition
overflows. -/
theorem intrinsicFloorPart_add_overflow (schedule : Option GasSchedule)
    (gas floorGas7623 dataLen nz accessListLen storageKeysLen authLen : Nat)
    (h : u64Mod ≤ floorGas7623 + mul64 (add64 dataLen (mul64 3 nz))
      (GetOr schedule "TX_FLOOR_PER_TOKEN" params.TxTotalCostFloorPerToken)) :
    intrinsicFloorPart schedule gas floorGas7623 dataLen nz true
      accessListLen storageKeysLen authLen = (0, 0) := by
  simp only [intrinsicFloorPart]
  rw [if_pos trivial]
  split
  · rfl
  · split
    · rfl
    · exfalso
      rename_i hf
      exact hf (by simpa only [SafeAdd, SafeMul, decide_eq_true_eq] using h)

/-- The floor block either aborts with `(0, 0)` or hands its accumulated
gas to the access-list block with some floor value. -/
theorem intrinsicFloorPart_path (schedule : Option GasSchedule)
    (gas floorGas7623 dataLen nz : Nat) (isEIP7623 : Bool)
    (accessListLen storageKeysLen authLen : Nat) :
    intrinsicFloorPart schedule gas floorGas7623 dataLen nz isEIP7623
      accessListLen storageKeysLen authLen = (0, 0) ∨
    ∃ floorGas, intrinsicFloorPart schedule gas floorGas7623 dataLen nz isEIP7623
        accessListLen storageKeysLen authLen =
      intrinsicAccessListPart schedule gas floorGas accessListLen storageKeysLen authLen := by
  simp only [intrinsicFloorPart]
  split
  · split
    · exact Or.inl rfl
    · split
      · exact Or.inl rfl
      · exact Or.inr ⟨_, rfl⟩
  · exact Or.inr ⟨_, rfl⟩

/-- The access-list block either aborts with `(0, 0)` or hands some
accumulated gas to the authorizations block. -/
theorem intrinsicAccessListPart_path (schedule : Option GasSchedule)
    (gas floorGas7623 accessListLen storageKeysLen authLen : Nat) :
    intrinsicAccessListPart schedule gas floorGas7623 accessListLen storageKeysLen authLen
      = (0, 0) ∨
    ∃ gas', intrinsicAccessListPart schedule gas floorGas7623 accessListLen storageKeysLen
        authLen = intrinsicAuthPart schedule gas' floorGas7623 authLen := by
  simp only [intrinsicAccessListPart]
  split
  · split
    · exact Or.inl rfl
    · split
      · exact Or.inl rfl
      · split
        · exact Or.inl rfl
        · split
          · exact Or.inl rfl
          · exact Or.inr ⟨_, rfl⟩
  · exact Or.inr ⟨_, rfl⟩

/-- With empty transaction data the intrinsic calculation goes straight
to the access-list block with the base gas. -/
theorem calcIntrinsic_nil (schedule : Option GasSchedule)
    (accessListLen storageKeysLen : Nat) (c e2 e28 e38 e76 aa : Bool) (authLen : Nat) :
    CalcCustomIntrinsicGas schedule [] accessListLen storageKeysLen
      c e2 e28 e38 e76 aa authLen =
    intrinsicAccessListPart schedule
      (if c && e2 then GetOr schedule "TX_CREATE_BASE" params.TxGasContractCreation
       else if aa then params.TxAAGas else GetOr schedule "TX_BASE" params.TxGas)
      (GetOr schedule "TX_BASE" params.TxGas) accessListLen storageKeysLen authLen := by
  simp only [CalcCustomIntrinsicGas, List.length_nil]
  rw [if_neg (lt_irrefl 0)]

/-- With non-empty data the intrinsic calculation either aborts with
`(0, 0)` in its data block or reaches the floor block with some
accumulated gas and the base floor gas. -/
theorem calcIntrinsic_path (schedule : Option GasSchedule) (data : List Nat)
    (accessListLen storageKeysLen : Nat) (c e2 e28 e38 e76 aa : Bool) (authLen : Nat)
    (hlen : 0 < data.length) :
    CalcCustomIntrinsicGas schedule data accessListLen storageKeysLen
      c e2 e28 e38 e76 aa authLen = (0, 0) ∨
    ∃ gas, CalcCustomIntrinsicGas schedule data accessListLen storageKeysLen
        c e2 e28 e38 e76 aa authLen =
      intrinsicFloorPart schedule gas (GetOr schedule "TX_BASE" params.TxGas) data.length
        (data.countP fun b => b != 0) e76 accessListLen storageKeysLen authLen := by
  simp only [CalcCustomIntrinsicGas]
  rw [if_pos hlen]
  generalize (if c && e2 then GetOr schedule "TX_CREATE_BASE" params.TxGasContractCreation
    else if aa then params.TxAAGas else GetOr schedule "TX_BASE" params.TxGas) = g0
  generalize (if e28 then GetOr schedule "TX_DATA_NONZERO" params.TxDataNonZeroGasEIP2028
    else GetOr schedule "TX_DATA_NONZERO" params.TxDataNonZeroGasFrontier) = nzG
  split
  · exact Or.inl rfl
  · split
    · exact Or.inl rfl
    · split
      · exact Or.inl rfl
      · split
        · exact Or.inl rfl
        · split
          · split
            · exact Or.inl rfl
            · split
              · exact Or.inl rfl
              · exact Or.inr ⟨_, rfl⟩
          · exact Or.inr ⟨_, rfl⟩

/-- C9 (amended): `CalcCustomIntrinsicGas` returns `(0, 0)` whenever one
of its *checked* multiplications or additions overflows — the
non-zero-data, zero-data, init-code-word, EIP-7623 floor (taken on the
wrapped token count), access-list address, storage-key and authorization
products, and the corresponding checked running additions — but the
EIP-7623 token count `dataLen + 3*nz` itself is computed in wrapping
uint64 arithmetic without a check. -/
theorem C9_amended :
    (∀ schedule (data : List Nat) accessListLen storageKeysLen c e2 e28 e38 e76 aa authLen,
      0 < data.length →
      u64Mod ≤ data.countP (fun b => b != 0) *
        (if e28 then GetOr schedule "TX_DATA_NONZERO" params.TxDataNonZeroGasEIP2028
         else GetOr schedule "TX_DATA_NONZERO" params.TxDataNonZeroGasFrontier) →
      CalcCustomIntrinsicGas schedule data accessListLen storageKeysLen
        c e2 e28 e38 e76 aa authLen = (0, 0)) ∧
    (∀ schedule (data : List Nat) accessListLen storageKeysLen c e2 e28 e38 e76 aa authLen,
      0 < data.length →
      u64Mod ≤ (if c && e2 then GetOr schedule "TX_CREATE_BASE" params.TxGasContractCreation
          else if aa then params.TxAAGas else GetOr schedule "TX_BASE" params.TxGas) +
        mul64 (data.countP fun b => b != 0)
          (if e28 then GetOr schedule "TX_DATA_NONZERO" params.TxDataNonZeroGasEIP2028
           else GetOr schedule "TX_DATA_NONZERO" params.TxDataNonZeroGasFrontier) →
      CalcCustomIntrinsicGas schedule data accessListLen storageKeysLen
        c e2 e28 e38 e76 aa authLen = (0, 0)) ∧
    (∀ schedule (data : List Nat) accessListLen storageKeysLen c e2 e28 e38 e76 aa authLen,
      0 < data.length →
      u64Mod ≤ (data.length - data.countP (fun b => b != 0)) *
        GetOr schedule "TX_DATA_ZERO" params.TxDataZeroGas →
      CalcCustomIntrinsicGas schedule data accessListLen storageKeysLen
        c e2 e28 e38 e76 aa authLen = (0, 0)) ∧
    (∀ schedule (data : List Nat) accessListLen storageKeysLen c e2 e28 e38 e76 aa authLen,
      0 < data.length →
      u64Mod ≤ add64
          (if c && e2 then GetOr schedule "TX_CREATE_BASE" params.TxGasContractCreation
           else if aa then params.TxAAGas else GetOr schedule "TX_BASE" params.TxGas)
          (mul64 (data.countP fun b => b != 0)
            (if e28 then GetOr schedule "TX_DATA_NONZERO" params.TxDataNonZeroGasEIP2028
             else GetOr schedule "TX_DATA_NONZERO" params.TxDataNonZeroGasFrontier)) +
        mul64 (data.length - data.countP fun b => b != 0)
          (GetOr schedule "TX_DATA_ZERO" params.TxDataZeroGas) →
      CalcCustomIntrinsicGas schedule data accessListLen storageKeysLen
        c e2 e28 e38 e76 aa authLen = (0, 0)) ∧
    (∀ schedule (data : List Nat) accessListLen storageKeysLen c e2 e28 e38 e76 aa authLen,
      0 < data.length → (c && e38) = true →
      u64Mod ≤ intrinsicToWordSize data.length *
        GetOr schedule "TX_INIT_CODE_WORD" params.InitCodeWordGas →
      CalcCustomIntrinsicGas schedule data accessListLen storageKeysLen
        c e2 e28 e38 e76 aa authLen = (0, 0)) ∧
    (∀ schedule (data : List Nat) accessListLen storageKeysLen c e2 e28 e38 e76 aa authLen,
      0 < data.length → (c && e38) = true →
      u64Mod ≤ add64 (add64
            (if c && e2 then GetOr schedule "TX_CREATE_BASE" params.TxGasContractCreation
             else if aa then params.TxAAGas else GetOr schedule "TX_BASE" params.TxGas)
            (mul64 (data.countP fun b => b != 0)
              (if e28 then GetOr schedule "TX_DATA_NONZERO" params.TxDataNonZeroGasEIP2028
               else GetOr schedule "TX_DATA_NONZERO" params.TxDataNonZeroGasFrontier)))
          (mul64 (data.length - data.countP fun b => b != 0)
            (GetOr schedule "TX_DATA_ZERO" params.TxDataZeroGas)) +
        mul64 (intrinsicToWordSize data.length)
          (GetOr schedule "TX_INIT_CODE_WORD" params.InitCodeWordGas) →
      CalcCustomIntrinsicGas schedule data accessListLen storageKeysLen
        c e2 e28 e38 e76 aa authLen = (0, 0)) ∧
    (∀ schedule (data : List Nat) accessListLen storageKeysLen c e2 e28 e38 aa authLen,
      0 < data.length →
      u64Mod ≤ add64 data.length (mul64 3 (data.countP fun b => b != 0)) *
        GetOr schedule "TX_FLOOR_PER_TOKEN" params.TxTotalCostFloorPerToken →
      CalcCustomIntrinsicGas schedule data accessListLen storageKeysLen
        c e2 e28 e38 true aa authLen = (0, 0)) ∧
    (∀ schedule (data : List Nat) accessListLen storageKeysLen c e2 e28 e38 aa authLen,
      0 < data.length →
      u64Mod ≤ GetOr schedule "TX_BASE" params.TxGas +
        mul64 (add64 data.length (mul64 3 (data.countP fun b => b != 0)))
          (GetOr schedule "TX_FLOOR_PER_TOKEN" params.TxTotalCostFloorPerToken) →
      CalcCustomIntrinsicGas schedule data accessListLen storageKeysLen
        c e2 e28 e38 true aa authLen = (0, 0)) ∧
    (∀ schedule (data : List Nat) accessListLen storageKeysLen c e2 e28 e38 e76 aa authLen,
      0 < accessListLen →
      u64Mod ≤ accessListLen *
        GetOr schedule "TX_ACCESS_LIST_ADDR" params.TxAccessListAddressGas →
      CalcCustomIntrinsicGas schedule data accessListLen storageKeysLen
        c e2 e28 e38 e76 aa authLen = (0, 0)) ∧
    (∀ schedule (data : List Nat) accessListLen storageKeysLen c e2 e28 e38 e76 aa authLen,
      0 < accessListLen →
      u64Mod ≤ storageKeysLen *
        GetOr schedule "TX_ACCESS_LIST_KEY" params.TxAccessListStorageKeyGas →
      CalcCustomIntrinsicGas schedule data accessListLen storageKeysLen
        c e2 e28 e38 e76 aa authLen = (0, 0)) ∧
    (∀ schedule (data : List Nat) accessListLen storageKeysLen c e2 e28 e38 e76 aa authLen,
      u64Mod ≤ authLen * GetOr schedule "TX_AUTH_COST" params.PerEmptyAccountCost →
      CalcCustomIntrinsicGas schedule data accessListLen storageKeysLen
        c e2 e28 e38 e76 aa authLen = (0, 0)) ∧
    (∀ schedule gas floorGas7623 accessListLen storageKeysLen authLen,
      0 < accessListLen →
      u64Mod ≤ gas + mul64 accessListLen
        (GetOr schedule "TX_ACCESS_LIST_ADDR" params.TxAccessListAddressGas) →
      intrinsicAccessListPart schedule gas floorGas7623 accessListLen storageKeysLen authLen
        = (0, 0)) ∧
    (∀ schedule gas floorGas7623 accessListLen storageKeysLen authLen,
      0 < accessListLen →
      u64Mod ≤ add64 gas (mul64 accessListLen
          (GetOr schedule "TX_ACCESS_LIST_ADDR" params.TxAccessListAddressGas)) +
        mul64 storageKeysLen
          (GetOr schedule "TX_ACCESS_LIST_KEY" params.TxAccessListStorageKeyGas) →
      intrinsicAccessListPart schedule gas floorGas7623 accessListLen storageKeysLen authLen
        = (0, 0)) ∧
    (∀ schedule gas floorGas7623 authLen,
      u64Mod ≤ gas + mul64 authLen
        (GetOr schedule "TX_AUTH_COST" params.PerEmptyAccountCost) →
      intrinsicAuthPart schedule gas floorGas7623 authLen = (0, 0)) := by
  refine ⟨?_, ?_, ?_, ?_, ?_, ?_, ?_, ?_, ?_, ?_, ?_, ?_, ?_, ?_⟩
  · intro schedule data accessListLen storageKeysLen c e2 e28 e38 e76 aa authLen hlen hov
    have hm : (SafeMul (data.countP fun b => b != 0)
        (if e28 then GetOr schedule "TX_DATA_NONZERO" params.TxDataNonZeroGasEIP2028
         else GetOr schedule "TX_DATA_NONZERO" params.TxDataNonZeroGasFrontier)).2 = true := by
      simpa [SafeMul] using hov
    simp only [CalcCustomIntrinsicGas]
    rw [if_pos hlen, hm, if_pos (rfl : (true : Bool) = true)]
  · intro schedule data accessListLen storageKeysLen c e2 e28 e38 e76 aa authLen hlen hov
    simp only [CalcCustomIntrinsicGas]
    rw [if_pos hlen]
    generalize hB : (if c && e2 then GetOr schedule "TX_CREATE_BASE" params.TxGasContractCreation
      else if aa then params.TxAAGas else GetOr schedule "TX_BASE" params.TxGas) = g0
    generalize hN : (if e28 then GetOr schedule "TX_DATA_NONZERO" params.TxDataNonZeroGasEIP2028
      else GetOr schedule "TX_DATA_NONZERO" params.TxDataNonZeroGasFrontier) = nzG
    rw [hB, hN] at hov
    split
    · rfl
    · split
      · rfl
      · exfalso
        rename_i hf
        exact hf (by simpa only [SafeAdd, SafeMul, decide_eq_true_eq] using hov)
  · intro schedule data accessListLen storageKeysLen c e2 e28 e38 e76 aa authLen hlen hov
    simp only [CalcCustomIntrinsicGas]
    rw [if_pos hlen]
    generalize hB : (if c && e2 then GetOr schedule "TX_CREATE_BASE" params.TxGasContractCreation
      else if aa then params.TxAAGas else GetOr schedule "TX_BASE" params.TxGas) = g0
    generalize hN : (if e28 then GetOr schedule "TX_DATA_NONZERO" params.TxDataNonZeroGasEIP2028
      else GetOr schedule "TX_DATA_NONZERO" params.TxDataNonZeroGasFrontier) = nzG
    split
    · rfl
    · split
      · rfl
      · split
        · rfl
        · exfalso
          rename_i hf
          exact hf (by simpa only [SafeMul, decide_eq_true_eq] using hov)
  · intro schedule data accessListLen storageKeysLen c e2 e28 e38 e76 aa authLen hlen hov
    simp only [CalcCustomIntrinsicGas]
    rw [if_pos hlen]
    generalize hB : (if c && e2 then GetOr schedule "TX_CREATE_BASE" params.TxGasContractCreation
      else if aa then params.TxAAGas else GetOr schedule "TX_BASE" params.TxGas) = g0
    generalize hN : (if e28 then GetOr schedule "TX_DATA_NONZERO" params.TxDataNonZeroGasEIP2028
      else GetOr schedule "TX_DATA_NONZERO" params.TxDataNonZeroGasFrontier) = nzG
    rw [hB, hN] at hov
    split
    · rfl
    · split
      · rfl
      · split
        · rfl
        · split
          · rfl
          · exfalso
            rename_i hf
            exact hf (by simpa only [SafeAdd, SafeMul, decide_eq_true_eq] using hov)
  · intro schedule data accessListLen storageKeysLen c e2 e28 e38 e76 aa authLen hlen hce hov
    simp only [CalcCustomIntrinsicGas]
    rw [if_pos hlen]
    generalize hB : (if c && e2 then GetOr schedule "TX_CREATE_BASE" params.TxGasContractCreation
      else if aa then params.TxAAGas else GetOr schedule "TX_BASE" params.TxGas) = g0
    generalize hN : (if e28 then GetOr schedule "TX_DATA_NONZERO" params.TxDataNonZeroGasEIP2028
      else GetOr schedule "TX_DATA_NONZERO" params.TxDataNonZeroGasFrontier) = nzG
    split
    · rfl
    · split
      · rfl
      · split
        · rfl
        · split
          · rfl
          · split
            · rfl
            · exfalso
              rename_i hf
              exact hf (by simpa only [SafeMul, decide_eq_true_eq] using hov)
  · intro schedule data accessListLen storageKeysLen c e2 e28 e38 e76 aa authLen hlen hce hov
    simp only [CalcCustomIntrinsicGas]
    rw [if_pos hlen]
    generalize hB : (if c && e2 then GetOr schedule "TX_CREATE_BASE" params.TxGasContractCreation
      else if aa then params.TxAAGas else GetOr schedule "TX_BASE" params.TxGas) = g0
    generalize hN : (if e28 then GetOr schedule "TX_DATA_NONZERO" params.TxDataNonZeroGasEIP2028
      else GetOr schedule "TX_DATA_NONZERO" params.TxDataNonZeroGasFrontier) = nzG
    rw [hB, hN] at hov
    split
    · rfl
    · split
      · rfl
      · split
        · rfl
        · split
          · rfl
          · split
            · rfl
            · split
              · rfl
              · exfalso
                rename_i hf
                exact hf (by simpa only [SafeAdd, SafeMul, decide_eq_true_eq] using hov)
  · intro schedule data accessListLen storageKeysLen c e2 e28 e38 aa authLen hlen hov
    rcases calcIntrinsic_path schedule data accessListLen storageKeysLen
        c e2 e28 e38 true aa authLen hlen with h0 | ⟨g, hg⟩
    · exact h0
    · rw [hg]
      exact intrinsicFloorPart_mul_overflow _ _ _ _ _ _ _ _ hov
  · intro schedule data accessListLen storageKeysLen c e2 e28 e38 aa authLen hlen hov
    rcases calcIntrinsic_path schedule data accessListLen storageKeysLen
        c e2 e28 e38 true aa authLen hlen with h0 | ⟨g, hg⟩
    · exact h0
    · rw [hg]
      exact intrinsicFloorPart_add_overflow _ _ _ _ _ _ _ _ hov
  · intro schedule data accessListLen storageKeysLen c e2 e28 e38 e76 aa authLen ha hov
    rcases Nat.eq_zero_or_pos data.length with hl | hl
    · have hd : data = [] := List.eq_nil_of_length_eq_zero hl
      subst hd
      rw [calcIntrinsic_nil]
      exact intrinsicAccessListPart_addr_mul_overflow _ _ _ _ _ _ ha hov
    · rcases calcIntrinsic_path schedule data accessListLen storageKeysLen
          c e2 e28 e38 e76 aa authLen hl with h0 | ⟨g, hg⟩
      · exact h0
      · rw [hg]
        rcases intrinsicFloorPart_path schedule g (GetOr schedule "TX_BASE" params.TxGas)
            data.length (data.countP fun b => b != 0) e76 accessListLen storageKeysLen
            authLen with h1 | ⟨f, hf⟩
        · exact h1
        · rw [hf]
          exact intrinsicAccessListPart_addr_mul_overflow _ _ _ _ _ _ ha hov
  · intro schedule data accessListLen storageKeysLen c e2 e28 e38 e76 aa authLen ha hov
    rcases Nat.eq_zero_or_pos data.length with hl | hl
    · have hd : data = [] := List.eq_nil_of_length_eq_zero hl
      subst hd
      rw [calcIntrinsic_nil]
      exact intrinsicAccessListPart_key_mul_overflow _ _ _ _ _ _ ha hov
    · rcases calcIntrinsic_path schedule data accessListLen storageKeysLen
          c e2 e28 e38 e76 aa authLen hl with h0 | ⟨g, hg⟩
      · exact h0
      · rw [hg]
        rcases intrinsicFloorPart_path schedule g (GetOr schedule "TX_BASE" params.TxGas)
            data.length (data.countP fun b => b != 0) e76 accessListLen storageKeysLen
            authLen with h1 | ⟨f, hf⟩
        · exact h1
        · rw [hf]
          exact intrinsicAccessListPart_key_mul_overflow _ _ _ _ _ _ ha hov
  · intro schedule data accessListLen storageKeysLen c e2 e28 e38 e76 aa authLen hov
    rcases Nat.eq_zero_or_pos data.length with hl | hl
    · have hd : data = [] := List.eq_nil_of_length_eq_zero hl
      subst hd
      rw [calcIntrinsic_nil]
      generalize (if c && e2 then GetOr schedule "TX_CREATE_BASE" params.TxGasContractCreation
        else if aa then params.TxAAGas else GetOr schedule "TX_BASE" params.TxGas) = g0
      rcases intrinsicAccessListPart_path schedule g0 (GetOr schedule "TX_BASE" params.TxGas)
          accessListLen storageKeysLen authLen with h0 | ⟨g', hg'⟩
      · exact h0
      · rw [hg']
        exact intrinsicAuthPart_mul_overflow _ _ _ _ hov
    · rcases calcIntrinsic_path schedule data accessListLen storageKeysLen
          c e2 e28 e38 e76 aa authLen hl with h0 | ⟨g, hg⟩
      · exact h0
      · rw [hg]
        rcases intrinsicFloorPart_path schedule g (GetOr schedule "TX_BASE" params.TxGas)
            data.length (data.countP fun b => b != 0) e76 accessListLen storageKeysLen
            authLen with h1 | ⟨f, hf⟩
        · exact h1
        · rw [hf]
          rcases intrinsicAccessListPart_path schedule g f accessListLen storageKeysLen
              authLen with h2 | ⟨g', hg'⟩
          · exact h2
          · rw [hg']
            exact intrinsicAuthPart_mul_overflow _ _ _ _ hov
  · intro schedule gas floorGas7623 accessListLen storageKeysLen authLen ha hov
    simp only [intrinsicAccessListPart]
    rw [if_pos ha]
    split
    · rfl
    · split
      · rfl
      · exfalso
        rename_i hf
        exact hf (by simpa only [SafeAdd, SafeMul, decide_eq_true_eq] using hov)
  · intro schedule gas floorGas7623 accessListLen storageKeysLen authLen ha hov
    simp only [intrinsicAccessListPart]
    rw [if_pos ha]
    split
    · rfl
    · split
      · rfl
      · split
        · rfl
        · split
          · rfl
          · exfalso
            rename_i hf
            exact hf (by simpa only [SafeAdd, SafeMul, decide_eq_true_eq] using hov)
  · intro schedule gas floorGas7623 authLen hov
    simp only [intrinsicAuthPart]
    split
    · rfl
    · split
      · rfl
      · exfalso
        rename_i hf
        exact hf (by simpa only [SafeAdd, SafeMul, decide_eq_true_eq] using hov)

/-- C9 witness: two non-zero bytes at `TX_DATA_NONZERO = 2^63` overflow
the checked data product, so the intrinsic calculation signals
ineligibility with `(0, 0)`. -/
theorem C9_witness :
    CalcCustomIntrinsicGas
      (some ⟨some fun k => if k = "TX_DATA_NONZERO" then some (2 ^ 63) else none⟩)
      [1, 1] 0 0 false true true false false false 0 = (0, 0) :=
  C9_amended.1
    (some ⟨some fun k => if k = "TX_DATA_NONZERO" then some (2 ^ 63) else none⟩)
    [1, 1] 0 0 false true true false false false 0 (by decide) (by decide)

/-- C4: for every CALL-family gas wrapper, a cold target with
`scope_gas < safeSub(CALL_COLD, CALL_WARM)` fails with out-of-gas;
otherwise the cold surcharge is deducted from `scope_gas` before the
inner calculator runs (so the 63/64ths child computation uses the
residual) and the reported gas is `inner_cost + cold_surcharge` (uint64
addition, as the code computes it); a warm target reports the inner cost
alone. -/
theorem C4_theorem (p : callGasParams) (env : CallEnv) (st : CallState)
    (scopeGas memorySize : Nat) (hasValue : Bool) :
    (env.addrCold = true → scopeGas < safeSub p.coldAccessCost p.warmAccessCost →
      customCallGasEIP2929 p hasValue env st scopeGas memorySize = .error .outOfGas ∧
      customCallCodeGasEIP2929 p env st scopeGas memorySize = .error .outOfGas ∧
      customDelegateCallGasEIP2929 p.coldAccessCost p.warmAccessCost env st scopeGas memorySize
        = .error .outOfGas ∧
      customStaticCallGasEIP2929 p.coldAccessCost p.warmAccessCost env st scopeGas memorySize
        = .error .outOfGas) ∧
    (env.addrCold = true → safeSub p.coldAccessCost p.warmAccessCost ≤ scopeGas →
      (∀ g st', gasCallInner p hasValue env st
          (scopeGas - safeSub p.coldAccessCost p.warmAccessCost) memorySize = .ok (g, st') →
        customCallGasEIP2929 p hasValue env st scopeGas memorySize =
          .ok (add64 g (safeSub p.coldAccessCost p.warmAccessCost), st')) ∧
      (∀ g st', gasCallCodeInner p env st
          (scopeGas - safeSub p.coldAccessCost p.warmAccessCost) memorySize = .ok (g, st') →
        customCallCodeGasEIP2929 p env st scopeGas memorySize =
          .ok (add64 g (safeSub p.coldAccessCost p.warmAccessCost), st')) ∧
      (∀ g st', gasDelegateCallInner env st
          (scopeGas - safeSub p.coldAccessCost p.warmAccessCost) memorySize = .ok (g, st') →
        customDelegateCallGasEIP2929 p.coldAccessCost p.warmAccessCost env st scopeGas memorySize =
          .ok (add64 g (safeSub p.coldAccessCost p.warmAccessCost), st')) ∧
      (∀ g st', gasStaticCallInner env st
          (scopeGas - safeSub p.coldAccessCost p.warmAccessCost) memorySize = .ok (g, st') →
        customStaticCallGasEIP2929 p.coldAccessCost p.warmAccessCost env st scopeGas memorySize =
          .ok (add64 g (safeSub p.coldAccessCost p.warmAccessCost), st'))) ∧
    (env.addrCold = false →
      customCallGasEIP2929 p hasValue env st scopeGas memorySize =
        gasCallInner p hasValue env st scopeGas memorySize ∧
      customCallCodeGasEIP2929 p env st scopeGas memorySize =
        gasCallCodeInner p env st scopeGas memorySize ∧
      customDelegateCallGasEIP2929 p.coldAccessCost p.warmAccessCost env st scopeGas memorySize =
        gasDelegateCallInner env st scopeGas memorySize ∧
      customStaticCallGasEIP2929 p.coldAccessCost p.warmAccessCost env st scopeGas memorySize =
        gasStaticCallInner env st scopeGas memorySize) := by
  refine ⟨?_, ?_, ?_⟩
  · intro hc hlt
    refine ⟨?_, ?_, ?_, ?_⟩ <;>
      · simp only [customCallGasEIP2929, customCallCodeGasEIP2929,
          customDelegateCallGasEIP2929, customStaticCallGasEIP2929]
        rw [hc, if_pos (rfl : (true : Bool) = true), if_pos hlt]
  · intro hc hle
    refine ⟨?_, ?_, ?_, ?_⟩ <;>
      · intro g st' hinner
        simp only [customCallGasEIP2929, customCallCodeGasEIP2929,
          customDelegateCallGasEIP2929, customStaticCallGasEIP2929]
        rw [hc, if_pos (rfl : (true : Bool) = true), if_neg (not_lt.mpr hle), hinner]
  · intro hc
    refine ⟨?_, ?_, ?_, ?_⟩ <;>
      · simp only [customCallGasEIP2929, customCallCodeGasEIP2929,
          customDelegateCallGasEIP2929, customStaticCallGasEIP2929]
        rw [hc, if_neg (by simp : ¬ (false = true))]

/-- C4 witness: a cold CALL with `CALL_COLD = 2600`, `CALL_WARM = 100`,
`scope_gas = 10000`, no value transfer and 5 gas requested — the inner
calculator on the residual 7500 yields 5, and the wrapper reports
`5 + 2500 = 2505`. -/
theorem C4_witness :
    customCallGasEIP2929 ⟨2600, 100, 9000, 25000⟩ true
        ⟨true, true, true, false, true, false, 5⟩ ⟨⟨0, 0⟩, 0⟩ 10000 0 =
      .ok (2505, ⟨⟨0, 0⟩, 5⟩) := by
  have h := ((C4_theorem ⟨2600, 100, 9000, 25000⟩
      ⟨true, true, true, false, true, false, 5⟩ ⟨⟨0, 0⟩, 0⟩ 10000 0 true).2.1
    rfl (by decide)).1 5 ⟨⟨0, 0⟩, 5⟩ rfl
  simpa using h

/-! List access helper lemmas for the tracer proofs. -/

theorem getD_of_le {α : Type _} (l : List α) (i : Nat) (d : α) (h : l.length ≤ i) :
    l.getD i d = d := by
  rw [List.getD_eq_getElem?_getD, List.getElem?_eq_none h]
  rfl

theorem getD_replicate {α : Type _} (m : Nat) (a : α) (i : Nat) (d : α) :
    (List.replicate m a).getD i d = if i < m then a else d := by
  rw [List.getD_eq_getElem?_getD, List.getElem?_replicate]
  split <;> rfl

theorem getD_set_self {α : Type _} (l : List α) (i : Nat) (v d : α) (h : i < l.length) :
    (l.set i v).getD i d = v := by
  rw [List.getD_eq_getElem?_getD, List.getElem?_set]
  simp [h]

theorem getD_set_ne {α : Type _} (l : List α) (i j : Nat) (v d : α) (h : i ≠ j) :
    (l.set i v).getD j d = l.getD j d := by
  rw [List.getD_eq_getElem?_getD, List.getElem?_set, if_neg h, ← List.getD_eq_getElem?_getD]

/-! Behaviour of the pending-index array operations. -/

theorem extendPendingIdx_length (p : List Int) (depth : Nat) :
    (extendPendingIdx p depth).length = max p.length (depth + 1) := by
  unfold extendPendingIdx
  rw [List.length_append, List.length_replicate]
  omega

theorem depth_lt_extend_length (p : List Int) (depth : Nat) :
    depth < (extendPendingIdx p depth).length := by
  rw [extendPendingIdx_length]
  omega

theorem pendAt_extend (p : List Int) (depth i : Nat) :
    pendAt (extendPendingIdx p depth) i = pendAt p i := by
  unfold pendAt extendPendingIdx
  rcases Nat.lt_or_ge i p.length with h | h
  · rw [List.getD_append _ _ _ _ h]
  · rw [List.getD_append_right _ _ _ _ h, getD_replicate, getD_of_le _ _ _ h]
    split <;> rfl

theorem pendAt_clearDeeper (p : List Int) (depth i : Nat) :
    pendAt (clearDeeper p depth) i = if depth < i then -1 else pendAt p i := by
  unfold pendAt clearDeeper
  rcases Nat.lt_or_ge i (p.take (depth + 1)).length with h | h
  · rw [List.getD_append _ _ _ _ h]
    rw [List.length_take] at h
    rw [List.getD_eq_getElem?_getD, List.getElem?_take, if_pos (by omega),
      ← List.getD_eq_getElem?_getD, if_neg (by omega)]
  · rw [List.getD_append_right _ _ _ _ h, getD_replicate]
    rw [List.length_take] at h
    by_cases hd : depth < i
    · rw [if_pos hd]
      split <;> rfl
    · rw [if_neg hd, getD_of_le _ _ _ (by omega)]
      split <;> rfl

theorem pendAt_setPendingIdx (p : List Int) (depth logIdx i : Nat) :
    pendAt (setPendingIdx p depth logIdx) i =
      if i = depth then (logIdx : Int) else pendAt p i := by
  unfold setPendingIdx pendAt
  by_cases h : i = depth
  · subst h
    rw [if_pos rfl]
    exact getD_set_self _ _ _ _ (depth_lt_extend_length p i)
  · rw [if_neg h, getD_set_ne _ _ _ _ _ (Ne.symm h)]
    exact pendAt_extend p depth i

/-! Step lemmas for `onOpcode`. -/

theorem updatePending_logs_length (t : TracerState) (depth currentGas : Nat) :
    (updatePendingGasUsed t depth currentGas).logs.length = t.logs.length := by
  simp only [updatePendingGasUsed]
  split
  · simp [List.length_set]
  · rfl

theorem updatePending_pendingIdx (t : TracerState) (depth currentGas : Nat) :
    (updatePendingGasUsed t depth currentGas).pendingIdx =
      clearDeeper (extendPendingIdx t.pendingIdx depth) depth := by
  simp only [updatePendingGasUsed]
  split <;> rfl

theorem updatePending_logAt (t : TracerState) (depth currentGas i : Nat)
    (hi : i < t.logs.length) :
    logAt (updatePendingGasUsed t depth currentGas) i =
      if pendAt t.pendingIdx depth = (i : Int) then
        { logAt t i with gasUsed := sub64 (logAt t i).gas currentGas }
      else logAt t i := by
  have hping : (clearDeeper (extendPendingIdx t.pendingIdx depth) depth).getD depth (-1) =
      pendAt t.pendingIdx depth := by
    have h1 := pendAt_clearDeeper (extendPendingIdx t.pendingIdx depth) depth depth
    rw [if_neg (lt_irrefl depth), pendAt_extend] at h1
    exact h1
  simp only [updatePendingGasUsed]
  rw [hping]
  by_cases h0 : 0 ≤ pendAt t.pendingIdx depth ∧
      (pendAt t.pendingIdx depth).toNat < t.logs.length
  · rw [if_pos h0]
    unfold logAt
    by_cases heq : pendAt t.pendingIdx depth = (i : Int)
    · rw [if_pos heq]
      have hti : (pendAt t.pendingIdx depth).toNat = i := by
        rw [heq]
        exact Int.toNat_ofNat i
      dsimp only
      rw [hti, getD_set_self _ _ _ _ hi]
    · rw [if_neg heq]
      have hne : (pendAt t.pendingIdx depth).toNat ≠ i := by
        intro hh
        apply heq
        omega
      dsimp only
      rw [getD_set_ne _ _ _ _ _ hne]
  · rw [if_neg h0]
    have hno : ¬ pendAt t.pendingIdx depth = (i : Int) := by
      intro heq
      exact h0 ⟨by omega, by omega⟩
    rw [if_neg hno]
    rfl

theorem onOpcode_logs_length (t : TracerState) (e : OpEvent) :
    (onOpcode t e).logs.length = t.logs.length + 1 := by
  simp only [onOpcode]
  rw [List.length_append, updatePending_logs_length]
  rfl

theorem onOpcode_pendAt (t : TracerState) (e : OpEvent) (i : Nat) :
    pendAt (onOpcode t e).pendingIdx i =
      if i = e.depth then (t.logs.length : Int)
      else if e.depth < i then -1 else pendAt t.pendingIdx i := by
  simp only [onOpcode]
  rw [pendAt_setPendingIdx, updatePending_logs_length, updatePending_pendingIdx,
    pendAt_clearDeeper, pendAt_extend]

theorem onOpcode_logAt_new (t : TracerState) (e : OpEvent) :
    logAt (onOpcode t e) t.logs.length =
      { pc := e.pc, op := e.op, gas := e.gas,
        gasCost := if e.gas < e.cost then e.gas else e.cost,
        gasUsed := e.cost, depth := e.depth } := by
  simp only [onOpcode]
  unfold logAt
  dsimp only
  rw [List.getD_eq_getElem?_getD,
    show t.logs.length = (updatePendingGasUsed t e.depth e.gas).logs.length from
      (updatePending_logs_length t e.depth e.gas).symm,
    List.getElem?_concat_length]
  by_cases h : e.gas < e.cost
  · rw [if_pos h, if_pos h]
    rfl
  · rw [if_neg h, if_neg h]
    rfl

theorem onOpcode_logAt_old (t : TracerState) (e : OpEvent) (i : Nat)
    (hi : i < t.logs.length) :
    logAt (onOpcode t e) i =
      if pendAt t.pendingIdx e.depth = (i : Int) then
        { logAt t i with gasUsed := sub64 (logAt t i).gas e.gas }
      else logAt t i := by
  simp only [onOpcode]
  unfold logAt
  dsimp only
  rw [List.getD_append _ _ _ _ (by rw [updatePending_logs_length]; exact hi)]
  exact updatePending_logAt t e.depth e.gas i hi

/-! Event access over a snoc. -/

theorem evAt_append_lt (evs : List OpEvent) (e : OpEvent) (i : Nat) (hi : i < evs.length) :
    evAt (evs ++ [e]) i = evAt evs i :=
  List.getD_append _ _ _ _ hi

theorem evAt_append_self (evs : List OpEvent) (e : OpEvent) :
    evAt (evs ++ [e]) evs.length = e := by
  unfold evAt
  rw [List.getD_eq_getElem?_getD, List.getElem?_concat_length]
  rfl

theorem closes_append_iff (evs : List OpEvent) (e : OpEvent) (i j : Nat)
    (hj : j < evs.length) : closes (evs ++ [e]) i j ↔ closes evs i j := by
  unfold closes
  constructor
  · rintro ⟨h1, _, h3, h4⟩
    refine ⟨h1, hj, ?_, ?_⟩
    · rw [evAt_append_lt _ _ _ hj, evAt_append_lt _ _ _ (h1.trans hj)] at h3
      exact h3
    · intro k hk1 hk2
      have hk := h4 k hk1 hk2
      rw [evAt_append_lt _ _ _ (h1.trans hj), evAt_append_lt _ _ _ (hk2.trans hj)] at hk
      exact hk
  · rintro ⟨h1, _, h3, h4⟩
    refine ⟨h1, by rw [List.length_append]; omega, ?_, ?_⟩
    · rw [evAt_append_lt _ _ _ hj, evAt_append_lt _ _ _ (h1.trans hj)]
      exact h3
    · intro k hk1 hk2
      rw [evAt_append_lt _ _ _ (h1.trans hj), evAt_append_lt _ _ _ (hk2.trans hj)]
      exact h4 k hk1 hk2

/-- The invariant holds for the fresh tracer. -/
theorem tracerInv_nil : TracerInv [] initTracer := by
  constructor
  · rfl
  · intro i hi
    exact absurd hi (by simp)
  · intro i hi
    exact absurd hi (by simp)
  · intro i hi
    exact absurd hi (by simp)
  · intro d v hv
    unfold initTracer pendAt at hv
    rw [List.getD_nil] at hv
    exact absurd hv (by omega)
  · intro i hi
    exact absurd hi (by simp)
  · rintro i j ⟨-, h2, -, -⟩
    exact absurd h2 (by simp)
  · intro i hi
    exact absurd hi (by simp)

/-- One `OnOpcode` step preserves the tracer invariant. -/
theorem tracerInv_step (evs : List OpEvent) (t : TracerState) (e : OpEvent)
    (h : TracerInv evs t) : TracerInv (evs ++ [e]) (onOpcode t e) := by
  have hn := h.len_eq
  have hlen' : (evs ++ [e]).length = evs.length + 1 := by simp
  have hnew : logAt (onOpcode t e) evs.length =
      { pc := e.pc, op := e.op, gas := e.gas,
        gasCost := if e.gas < e.cost then e.gas else e.cost,
        gasUsed := e.cost, depth := e.depth } := by
    rw [← hn]
    exact onOpcode_logAt_new t e
  have hold : ∀ i, i < evs.length → logAt (onOpcode t e) i =
      if pendAt t.pendingIdx e.depth = (i : Int) then
        { logAt t i with gasUsed := sub64 (logAt t i).gas e.gas }
      else logAt t i := fun i hi => onOpcode_logAt_old t e i (by omega)
  have holdGas : ∀ i, i < evs.length →
      (logAt (onOpcode t e) i).gas = (logAt t i).gas := by
    intro i hi
    rw [hold i hi]
    split <;> rfl
  have holdDepth : ∀ i, i < evs.length →
      (logAt (onOpcode t e) i).depth = (logAt t i).depth := by
    intro i hi
    rw [hold i hi]
    split <;> rfl
  have holdCost : ∀ i, i < evs.length →
      (logAt (onOpcode t e) i).gasCost = (logAt t i).gasCost := by
    intro i hi
    rw [hold i hi]
    split <;> rfl
  have hpend : ∀ d, pendAt (onOpcode t e).pendingIdx d =
      if d = e.depth then (evs.length : Int)
      else if e.depth < d then -1 else pendAt t.pendingIdx d := by
    intro d
    rw [onOpcode_pendAt, hn]
  have hEA : ∀ i, i < evs.length → evAt (evs ++ [e]) i = evAt evs i :=
    fun i hi => evAt_append_lt evs e i hi
  have hEn : evAt (evs ++ [e]) evs.length = e := evAt_append_self evs e
  constructor
  -- len_eq
  · rw [onOpcode_logs_length, hn, hlen']
  -- gas_eq
  · intro i hi
    rw [hlen'] at hi
    rcases Nat.lt_or_ge i evs.length with hilt | hige
    · rw [holdGas i hilt, hEA i hilt, h.gas_eq i hilt]
    · have hieq : i = evs.length := by omega
      subst hieq
      rw [hnew, hEn]
  -- depth_eq
  · intro i hi
    rw [hlen'] at hi
    rcases Nat.lt_or_ge i evs.length with hilt | hige
    · rw [holdDepth i hilt, hEA i hilt, h.depth_eq i hilt]
    · have hieq : i = evs.length := by omega
      subst hieq
      rw [hnew, hEn]
  -- cost_eq
  · intro i hi
    rw [hlen'] at hi
    rcases Nat.lt_or_ge i evs.length with hilt | hige
    · rw [holdCost i hilt, hEA i hilt, h.cost_eq i hilt]
    · have hieq : i = evs.length := by omega
      subst hieq
      rw [hnew, hEn]
  -- pend_sound
  · intro d v hv
    rw [hpend d] at hv
    rw [hlen']
    by_cases hd : d = e.depth
    · rw [if_pos hd] at hv
      have hveq : v = evs.length := by omega
      subst hveq
      refine ⟨by omega, ?_, ?_⟩
      · rw [hEn, hd]
      · intro k hk1 hk2
        omega
    · rw [if_neg hd] at hv
      by_cases hdd : e.depth < d
      · rw [if_pos hdd] at hv
        exact absurd hv (by omega)
      · rw [if_neg hdd] at hv
        obtain ⟨hv1, hv2, hv3⟩ := h.pend_sound d v hv
        refine ⟨by omega, ?_, ?_⟩
        · rw [hEA v hv1]
          exact hv2
        · intro k hk1 hk2
          rcases Nat.lt_or_ge k evs.length with hklt | hkge
          · rw [hEA k hklt]
            exact hv3 k hk1 hklt
          · have hkeq : k = evs.length := by omega
            subst hkeq
            rw [hEn]
            omega
  -- pend_complete
  · intro i hi hopen
    rw [hlen'] at hi
    rw [hpend]
    rcases Nat.lt_or_ge i evs.length with hilt | hige
    · have hdi : (evAt (evs ++ [e]) i).depth = (evAt evs i).depth := hEA i hilt ▸ rfl
      have hlt : (evAt evs i).depth < e.depth := by
        have hk := hopen evs.length (by omega) (by omega)
        rw [hEn, hEA i hilt] at hk
        exact hk
      have hopen' : ∀ k, i < k → k < evs.length →
          (evAt evs i).depth < (evAt evs k).depth := by
        intro k hk1 hk2
        have hk := hopen k hk1 (by omega)
        rw [hEA i hilt, hEA k hk2] at hk
        exact hk
      have hpc := h.pend_complete i hilt hopen'
      rw [hdi, if_neg (by omega), if_neg (by omega)]
      exact hpc
    · have hieq : i = evs.length := by omega
      subst hieq
      rw [hEn, if_pos rfl]
  -- closed_gasUsed
  · intro i j hcl
    obtain ⟨hij, hjlen, hdep, hbet⟩ := hcl
    rw [hlen'] at hjlen
    rcases Nat.lt_or_ge j evs.length with hjlt | hjge
    · have hi : i < evs.length := by omega
      have hcl' : closes evs i j := (closes_append_iff evs e i j hjlt).mp
        ⟨hij, by rw [hlen']; omega, hdep, hbet⟩
      have hdep' : (evAt evs j).depth = (evAt evs i).depth := by
        rw [hEA j hjlt, hEA i hi] at hdep
        exact hdep
      have hno : ¬ pendAt t.pendingIdx e.depth = (i : Int) := by
        intro hpe
        obtain ⟨hv1, hv2, hv3⟩ := h.pend_sound e.depth i hpe
        have hj2 := hv3 j hij hjlt
        omega
      rw [hold i hi, if_neg hno, hEA i hi, hEA j hjlt]
      exact h.closed_gasUsed i j hcl'
    · have hjeq : j = evs.length := by omega
      subst hjeq
      have hi : i < evs.length := hij
      have hdi : (evAt evs i).depth = e.depth := by
        rw [hEn, hEA i hi] at hdep
        exact hdep.symm
      have hopen' : ∀ k, i < k → k < evs.length →
          (evAt evs i).depth < (evAt evs k).depth := by
        intro k hk1 hk2
        have hk := hbet k hk1 hk2
        rw [hEA i hi, hEA k hk2] at hk
        exact hk
      have hpc := h.pend_complete i hi hopen'
      rw [hdi] at hpc
      rw [hold i hi, if_pos hpc, hEA i hi, hEn]
      show sub64 (logAt t i).gas e.gas = sub64 (evAt evs i).gas e.gas
      rw [h.gas_eq i hi]
  -- open_gasUsed
  · intro i hi hnone
    rw [hlen'] at hi
    rcases Nat.lt_or_ge i evs.length with hilt | hige
    · have hnone' : ∀ j, ¬ closes evs i j := by
        intro j hcl
        exact hnone j ((closes_append_iff evs e i j hcl.2.1).mpr hcl)
      have hno : ¬ pendAt t.pendingIdx e.depth = (i : Int) := by
        intro hpe
        obtain ⟨hv1, hv2, hv3⟩ := h.pend_sound e.depth i hpe
        apply hnone evs.length
        refine ⟨hv1, by rw [hlen']; omega, ?_, ?_⟩
        · rw [hEn, hEA i hv1, hv2]
        · intro k hk1 hk2
          rw [hEA i hv1, hEA k hk2, hv2]
          exact hv3 k hk1 hk2
      rw [hold i hilt, if_neg hno, hEA i hilt]
      exact h.open_gasUsed i hilt hnone'
    · have hieq : i = evs.length := by omega
      subst hieq
      rw [hnew, hEn]

/-- The invariant holds after running the tracer over any opcode
stream. -/
theorem tracerInv_run (evs : List OpEvent) : TracerInv evs (runTracer evs) := by
  induction evs using List.reverseRecOn with
  | nil => exact tracerInv_nil
  | append_singleton evs e ih =>
      have hr : runTracer (evs ++ [e]) = onOpcode (runTracer evs) e := by
        unfold runTracer
        rw [List.foldl_append]
        rfl
      rw [hr]
      exact tracerInv_step evs (runTracer evs) e ih

/-- C8: after sanitisation every recorded log entry satisfies
`gas_cost ≤ gas` (the `0 ≤` half is inherent to the unsigned embedding),
and whenever the interpreter reports a cost exceeding the remaining gas,
the stored `gas_cost` is capped at exactly the remaining gas — for every
opcode of every execution. -/
theorem C8_theorem (evs : List OpEvent) :
    (∀ l ∈ (runTracer evs).logs, l.gasCost ≤ l.gas) ∧
    (∀ i, i < evs.length → (evAt evs i).gas < (evAt evs i).cost →
      (logAt (runTracer evs) i).gasCost = (evAt evs i).gas) := by
  have h := tracerInv_run evs
  constructor
  · intro l hl
    obtain ⟨n, hn, hnl⟩ := List.mem_iff_getElem.mp hl
    have hlen : n < evs.length := by rw [← h.len_eq]; exact hn
    have hli : l = logAt (runTracer evs) n := by
      rw [← hnl]
      unfold logAt
      rw [List.getD_eq_getElem _ _ hn]
    rw [hli, h.cost_eq n hlen, h.gas_eq n hlen]
    split <;> omega
  · intro i hi hgc
    rw [h.cost_eq i hi, if_pos hgc]

/-- C8 witness: a single opcode reported with cost 99 against 10
remaining gas stores `gas_cost = 10`. -/
theorem C8_witness :
    (logAt (runTracer [⟨0, 0, 10, 99, 1⟩]) 0).gasCost = 10 := by
  have h := (C8_theorem [⟨0, 0, 10, 99, 1⟩]).2 0 (by norm_num) (by decide)
  simpa using h

/-- C7 counterexample: in the trace
`[(gas 100, cost 3, depth 1), (gas 50, cost 200, depth 2),
(gas 40, cost 1, depth 1)]` the depth-2 entry is the last before control
returns (no later entry closes it), and the claim says it keeps
`gas_used = gas_cost`; but the code stores the raw reported cost 200 in
`gas_used` while `gas_cost` was sanitised down to 50, so they differ. -/
theorem C7_counterexample :
    (logAt (runTracer [⟨0, 0, 100, 3, 1⟩, ⟨1, 0, 50, 200, 2⟩, ⟨2, 0, 40, 1, 1⟩]) 1).gasUsed
      = 200 ∧
    (logAt (runTracer [⟨0, 0, 100, 3, 1⟩, ⟨1, 0, 50, 200, 2⟩, ⟨2, 0, 40, 1, 1⟩]) 1).gasCost
      = 50 ∧
    (logAt (runTracer [⟨0, 0, 100, 3, 1⟩, ⟨1, 0, 50, 200, 2⟩, ⟨2, 0, 40, 1, 1⟩]) 1).gasUsed
      ≠ (logAt (runTracer [⟨0, 0, 100, 3, 1⟩, ⟨1, 0, 50, 200, 2⟩, ⟨2, 0, 40, 1, 1⟩]) 1).gasCost ∧
    ∀ j, ¬ closes [⟨0, 0, 100, 3, 1⟩, ⟨1, 0, 50, 200, 2⟩, ⟨2, 0, 40, 1, 1⟩] 1 j := by
  refine ⟨by decide, by decide, by decide, ?_⟩
  rintro j ⟨h1, h2, h3, -⟩
  have hj : j = 2 := by
    simp only [List.length_cons, List.length_nil] at h2
    omega
  subst hj
  revert h3
  decide

/-- C7 (amended): for every pair of log entries at the same depth with
only strictly deeper entries between them, the earlier entry's `gas_used`
equals its `gas` minus the later entry's `gas`; an entry with no such
successor at its depth keeps `gas_used` equal to the raw reported cost,
which coincides with the recorded (sanitised) `gas_cost` whenever the
reported cost does not exceed the remaining gas. -/
theorem C7_amended (evs : List OpEvent) :
    (∀ i j, closes evs i j → (evAt evs j).gas ≤ (evAt evs i).gas →
      (evAt evs i).gas < u64Mod →
      (logAt (runTracer evs) i).gasUsed = (evAt evs i).gas - (evAt evs j).gas) ∧
    (∀ i, i < evs.length → (∀ j, ¬ closes evs i j) →
      (logAt (runTracer evs) i).gasUsed = (evAt evs i).cost ∧
      ((evAt evs i).cost ≤ (evAt evs i).gas →
        (logAt (runTracer evs) i).gasUsed = (logAt (runTracer evs) i).gasCost)) := by
  have h := tracerInv_run evs
  constructor
  · intro i j hc hle hlt
    rw [h.closed_gasUsed i j hc]
    have hb : (evAt evs j).gas % u64Mod = (evAt evs j).gas :=
      Nat.mod_eq_of_lt (lt_of_le_of_lt hle hlt)
    unfold sub64
    rw [hb]
    have hsplit : (evAt evs i).gas + u64Mod - (evAt evs j).gas =
        ((evAt evs i).gas - (evAt evs j).gas) + u64Mod := by omega
    rw [hsplit, Nat.add_mod_right]
    exact Nat.mod_eq_of_lt (by omega)
  · intro i hi hnone
    refine ⟨h.open_gasUsed i hi hnone, fun hcg => ?_⟩
    rw [h.open_gasUsed i hi hnone, h.cost_eq i hi, if_neg (by omega)]

/-- C7 witness: two consecutive entries at the same depth with gas 100
then 90 — the first entry's `gas_used` is exactly the difference 10. -/
theorem C7_witness :
    (logAt (runTracer [⟨0, 0, 100, 3, 1⟩, ⟨1, 0, 90, 5, 1⟩]) 0).gasUsed = 10 := by
  have hc : closes [⟨0, 0, 100, 3, 1⟩, ⟨1, 0, 90, 5, 1⟩] 0 1 :=
    ⟨by omega, by decide, by decide, by intro k hk1 hk2; omega⟩
  have h := (C7_amended [⟨0, 0, 100, 3, 1⟩, ⟨1, 0, 90, 5, 1⟩]).1 0 1 hc
    (by decide) (by decide)
  simpa using h

end Erigone
